import Mathlib

/-!
Verification of the AMM trading engine and settlement pipeline of a
prediction-market exchange (Django backend, `market/services/amm/`).

The development is a shallow embedding in three layers:

* `LMSR` — the pure pricing math of `lmsr.py` over real numbers (the source
  runs in 64-bit floats; the numerically-stable branch cuts of the source are
  embedded literally, so the claims are settled with the explicit float-style
  tolerances the spec states).
* `QuoteLayer` — the pure quote engine of `quote_core.py` / `money.py` over
  real numbers, with `Decimal` quantization embedded as exact ceiling/floor
  rounding.
* `Exec` / `Settle` — the transactional execution path of `execution.py` and
  the settlement pipeline of `settlement.py`, over exact rational arithmetic
  (the source uses `Decimal` columns there), as state-passing functions whose
  `Except` failure models the exception that aborts (rolls back) the enclosing
  `transaction.atomic()` block.
-/

namespace LMSR

/-- `_logsumexp(xs)` from `lmsr.py`: stable `log(sum(exp(xs)))`, computed by
subtracting the running maximum `m = max(xs)` before exponentiating.  Over the
reals the `isinf` escape of the float source cannot fire and is dropped; the
empty list (on which Python `max` raises) is given the junk value `0`. -/
noncomputable def logsumexp : List ℝ → ℝ
  | [] => 0
  | x :: xs =>
    let m := xs.foldl max x
    m + Real.log (((x :: xs).map (fun y => Real.exp (y - m))).sum)

/-- `_log1p_exp(x)` from `lmsr.py`: stable `log(1 + exp(x))` with the branch
cuts of the source for large and small `x` embedded literally. -/
noncomputable def log1pExp (x : ℝ) : ℝ :=
  if x > 50 then x
  else if x < -50 then Real.exp x
  else Real.log (1 + Real.exp x)

/-- `prices(q, b)` body from `lmsr.py` (the softmax of `q/b` with
max-subtraction for stability), factored out of the `b` guard. -/
noncomputable def pricesVal (q : List ℝ) (b : ℝ) : List ℝ :=
  let scaled := q.map (fun qi => qi / b)
  let m := match scaled with
    | [] => 0
    | x :: xs => xs.foldl max x
  let exps := scaled.map (fun x => Real.exp (x - m))
  let s := exps.sum
  exps.map (fun e => e / s)

/-- Errors raised by the pure quote/LMSR layer.  `errors.py` (the module
declaring `QuoteInputError` and `QuoteMathError`) is not under `src/`; per the
spec error-taxonomy, validation failures are input errors and numeric failures
are math errors, so the two constructors mirror those two classes.  The
`ValueError`/`IndexError` guards of `lmsr.py` are input errors per spec §4.A. -/
inductive QErr where
  | input (msg : String)
  | math (msg : String)
deriving DecidableEq, Repr

/-- `prices(q, b)` from `lmsr.py`, with its `b <= 0` guard. -/
noncomputable def prices (q : List ℝ) (b : ℝ) : Except QErr (List ℝ) :=
  if b ≤ 0 then .error (.input "b must be > 0")
  else .ok (pricesVal q b)

/-- `cost(q, b) = b * logsumexp(q/b)` from `lmsr.py`, with its `b <= 0` guard
dropped into a total function (the guarded variant is `costE`): every call
site in the claims has `b > 0` in scope. -/
noncomputable def cost (q : List ℝ) (b : ℝ) : ℝ :=
  b * logsumexp (q.map (fun qi => qi / b))

/-- `cost(q, b)` from `lmsr.py` with the `b <= 0` input guard. -/
noncomputable def costE (q : List ℝ) (b : ℝ) : Except QErr ℝ :=
  if b ≤ 0 then .error (.input "b must be > 0")
  else .ok (cost q b)

/-- The value computed by `buy_amount_to_delta_q` once its guards pass:
log-domain evaluation `b * log1p_exp(log(expm1(A/b)) + (logS - log a))`
exactly as in the source. -/
noncomputable def buyDeltaVal (q : List ℝ) (b : ℝ) (k : ℕ) (amountNet : ℝ) : ℝ :=
  let scaled := q.map (fun qi => qi / b)
  let logS := logsumexp scaled
  let loga := scaled.getD k 0
  let logQuot := logS - loga
  let t := Real.exp (amountNet / b) - 1
  let x := Real.log t + logQuot
  b * log1pExp x

/-- `buy_amount_to_delta_q(q, b, option_index, amount_net)` from `lmsr.py`:
the scalar `delta` with `cost(q + delta*e_k, b) - cost(q, b) = amount_net`,
with the source's three input guards (`b <= 0`, `amount_net <= 0`,
`option_index` out of range; the index is a Python `int`, hence `ℤ`). -/
noncomputable def buyAmountToDeltaQ (q : List ℝ) (b : ℝ) (optionIndex : ℤ)
    (amountNet : ℝ) : Except QErr ℝ :=
  if b ≤ 0 then .error (.input "b must be > 0")
  else if amountNet ≤ 0 then .error (.input "amount_net must be > 0")
  else if optionIndex < 0 ∨ (q.length : ℤ) ≤ optionIndex then
    .error (.input "option_index out of range")
  else .ok (buyDeltaVal q b optionIndex.toNat amountNet)

/-- The quantity `S = sum_j exp(q_j / b)` of the closed form in
`buy_amount_to_delta_q`'s docstring (`a = exp(q_k / b)` is written inline
where needed). -/
noncomputable def sumExp (q : List ℝ) (b : ℝ) : ℝ :=
  (q.map (fun x => Real.exp (x / b))).sum

end LMSR

namespace Py

/-- Python `str.strip()` (no argument): remove leading and trailing
whitespace.  Defined over the character list so that it evaluates inside
the kernel (`String.trim` does not reduce there); agrees with the source's
usage, which only strips ASCII whitespace from short tags. -/
def pyStrip (s : String) : String :=
  ⟨((s.data.dropWhile Char.isWhitespace).reverse.dropWhile Char.isWhitespace).reverse⟩

/-- Python `str.lower()`, for the ASCII tags the source lowercases
(`side`, `group_rule`, the trade side). -/
def pyLower (s : String) : String := ⟨s.data.map Char.toLower⟩

end Py

namespace QuoteLayer

open LMSR

/-- `_quantize_money(x, money_quant, ROUND_UP)` from `money.py`: `Decimal`
quantization to the grid `money_quant` with `ROUND_UP` (round away from
zero), embedded exactly over the reals. -/
noncomputable def quantizeMoneyUp (x quant : ℝ) : ℝ :=
  (if 0 ≤ x / quant then (⌈x / quant⌉ : ℝ) else (⌊x / quant⌋ : ℝ)) * quant

/-- `_quantize_money(x, money_quant, ROUND_DOWN)` from `money.py`:
quantization with `ROUND_DOWN` (round toward zero). -/
noncomputable def quantizeMoneyDown (x quant : ℝ) : ℝ :=
  (if 0 ≤ x / quant then (⌊x / quant⌋ : ℝ) else (⌈x / quant⌉ : ℝ)) * quant

/-- `_quantize_shares(x)` from `money.py`: quantize shares to 8 decimal
places (`SHARES_QUANT = 0.00000001`), rounding down (toward zero). -/
noncomputable def quantizeShares (x : ℝ) : ℝ :=
  (if 0 ≤ x then (⌊x * 100000000⌋ : ℝ) else (⌈x * 100000000⌉ : ℝ)) / 100000000

/-- Python `round` (banker's rounding, used by `int(round(...))` in the
source): round to the nearest integer, ties to the even integer. -/
noncomputable def pyRound (x : ℝ) : ℤ :=
  if Int.fract x = 1 / 2 then (if Even ⌊x⌋ then ⌊x⌋ else ⌊x⌋ + 1) else round x

/-- `_fee_rate_from_bps(fee_bps)` from `money.py`: rejects `fee_bps`
outside `[0, 9999]` (a 100% fee would divide by zero in the gross-up),
otherwise `fee_bps / 10000`. -/
noncomputable def feeRateFromBps (feeBps : ℤ) : Except QErr ℝ :=
  if feeBps < 0 ∨ 10000 ≤ feeBps then .error (.input "fee_bps must be in [0, 9999]")
  else .ok ((feeBps : ℝ) / 10000)

/-- `_bps_from_probabilities(probabilities)` from `money.py`: clamp each
probability into `[0, 1]` and convert to integer basis points. -/
noncomputable def bpsFromProbabilities (ps : List ℝ) : List ℤ :=
  ps.map (fun p => pyRound ((if p < 0 then 0 else if 1 < p then 1 else p) * 10000))

/-- The `avg_price_bps` computation of the buy branches of `quote_from_state`
(`quote_core.py`): `int(round(float(gross_in_dec) / float(shares_out_dec) *
10000.0))`.  Python float division raises `ZeroDivisionError` when the
quantized `shares_out_dec` is zero, so the quote call aborts with an
exception (which `execute_buy` catches and wraps into `QUOTE_MATH_ERROR`)
instead of returning a quote whose `shares_out` is zero. -/
noncomputable def avgPriceBpsE (gross sharesOutDec : ℝ) : Except QErr ℤ :=
  if sharesOutDec = 0 then .error (.math "float division by zero")
  else .ok (pyRound (gross / sharesOutDec * 10000))

/-- `PoolState` from `state.py`.  The two lookup dicts `option_id_to_idx`
and `option_index_to_idx` of the source are built by enumerating
`option_ids` / `option_indexes`; they are embedded as positional lookups on
those lists (`List.indexOf?`) rather than as duplicated fields. -/
structure PoolState where
  marketId : String
  poolId : String
  b : ℝ
  feeBps : ℤ
  optionIds : List String
  optionIndexes : List ℤ
  q : List ℝ
  noToYesOptionId : List (String × String × ℕ) := []
  isExclusive : Bool := false

/-- Lookup in the `no_to_yes_option_id` dict of `PoolState`:
NO `option_id` to `(YES option_id, pool_idx)`. -/
def lookupNoToYes (st : PoolState) (oid : String) : Option (String × ℕ) :=
  (st.noToYesOptionId.find? (fun e => e.1 == oid)).map (fun e => e.2)

/-- `_resolve_target_idx(state, option_id, option_index)` from `state.py`:
`option_id` resolves positionally, falling back to the NO-to-YES map
(exclusive events); `option_index` resolves positionally; exactly one of the
two selectors must be supplied. -/
def resolveTargetIdx (st : PoolState) (optionId : Option String)
    (optionIndex : Option ℤ) : Except QErr ℕ :=
  match optionId with
  | some oid =>
    match st.optionIds.indexOf? oid with
    | some i => .ok i
    | none =>
      match lookupNoToYes st oid with
      | some (_, poolIdx) => .ok poolIdx
      | none => .error (.input "target option_id not found in this pool")
  | none =>
    match optionIndex with
    | some oi =>
      match st.optionIndexes.indexOf? oi with
      | some j => .ok j
      | none => .error (.input "target option_index not found in this pool")
    | none => .error (.input "must provide option_id or option_index")

/-- Modelled from the spec: `_max_gross_payout(p_k, b)` is imported by
`quote_core.py` from `quote_math.py`, which is not under `src/`.  Spec §4.B:
the theoretical maximum gross proceeds of selling outcome `k` is
`gross_max(k) = -b * log(1 - p_k)`. -/
noncomputable def maxGrossPayout (pk b : ℝ) : ℝ := -b * Real.log (1 - pk)

/-- Modelled from the spec: `_solve_sell_shares_for_gross_payout(p_k, b, g)`
is imported by `quote_core.py` from `quote_math.py`, which is not under
`src/`.  Spec §4.B: the closed-form sell inverse, i.e. the `shares_needed`
with `gross_from_selling(shares_needed) = g`; solving the LMSR sell gross
`g(s) = -b * log(1 - p_k * (1 - exp(-s/b)))` for `s` gives
`s = -b * log(1 - (1 - exp(-g/b)) / p_k)`. -/
noncomputable def solveSellSharesForGrossPayout (pk b gross : ℝ) : ℝ :=
  -b * Real.log (1 - (1 - Real.exp (-gross / b)) / pk)

/-- `q_post` update loop of `quote_core.py` (`for j, d in enumerate(deltas):
q_post[j] += d`): positionwise addition; indices past the end of `deltas`
are unchanged (the delta vectors produced by the source always have the full
pool length). -/
noncomputable def applyDeltas (q : List ℝ) (ds : List ℝ) : List ℝ :=
  (List.range q.length).map (fun j => q.getD j 0 + ds.getD j 0)

/-- `_compute_no_buy_deltas(state, target_idx, net_float)` from
`quote_core.py`: distribute a NO-side buy across all non-target outcomes in
proportion to their current probabilities, computing each outcome's `q`
increment via the LMSR buy inverse.  Returns `(deltas, total_shares)`; the
running `total_shares` accumulator of the source equals the sum of the
returned delta list (the target entry and any skipped entry are `0`). -/
noncomputable def computeNoBuyDeltas (st : PoolState) (targetIdx : ℕ)
    (netFloat : ℝ) : Except QErr (List ℝ × ℝ) :=
  let n := st.q.length
  if n < 2 then .error (.math "Cannot buy No in a single-option pool")
  else do
    let probs ← prices st.q st.b
    let otherProbSum := ∑ j ∈ (Finset.range n).erase targetIdx, probs.getD j 0
    if otherProbSum ≤ 0 then
      .error (.math "No other options available to distribute buy")
    else do
      let deltas ← (List.range n).mapM (fun j =>
        if j = targetIdx then pure (0 : ℝ)
        else
          let amountJ := netFloat * (probs.getD j 0 / otherProbSum)
          if 0 < amountJ then buyAmountToDeltaQ st.q st.b (j : ℤ) amountJ
          else pure 0)
      pure (deltas, deltas.sum)

/-- The quote payload returned by `quote_from_state` (its Python dict;
numeric values that the source stringifies for JSON are kept numeric). -/
structure QuoteRes where
  marketId : String
  poolId : String
  optionId : String
  side : String
  isNoSide : Bool := false
  amountIn : Option ℝ := none
  amountOut : Option ℝ := none
  sharesOut : Option ℝ := none
  sharesIn : Option ℝ := none
  feeAmount : ℝ
  avgPriceBps : ℤ
  preProbBps : List ℤ
  postProbBps : List ℤ
  optionIds : List String
  optionIndexes : List ℤ
  noBuyDeltas : Option (List ℝ) := none
  noSellDeltas : Option (List ℝ) := none
  requestedAmountOut : Option ℝ := none
  grossNeeded : Option ℝ := none

/-- The BUY-with-`amount_in` branch of `quote_from_state` (both the
standard path and the exclusive-event NO-side path). -/
noncomputable def quoteBuyAmount (st : PoolState) (targetIdx : ℕ)
    (feeRate : ℝ) (preProbBps : List ℤ) (grossInDec : ℝ) (moneyQuant : ℝ)
    (isNoSide : Bool) : Except QErr QuoteRes :=
  if grossInDec ≤ 0 then .error (.input "amount_in must be > 0")
  else
    let feeDec := quantizeMoneyUp (grossInDec * feeRate) moneyQuant
    let netDec := grossInDec - feeDec
    if netDec ≤ 0 then .error (.math "Amount too low to cover fees")
    else
      let netFloat := netDec
      if isNoSide ∧ st.isExclusive then do
        let (deltas, totalShares) ← computeNoBuyDeltas st targetIdx netFloat
        if totalShares ≤ 0 then
          .error (.math "Amount too low to produce any shares (after fees / rounding)")
        else do
          let qPost := applyDeltas st.q deltas
          let postProbs ← prices qPost st.b
          let sharesOutDec := quantizeShares totalShares
          pure { marketId := st.marketId, poolId := st.poolId
                 optionId := st.optionIds.getD targetIdx ""
                 side := "buy", isNoSide := true
                 amountIn := some (quantizeMoneyUp grossInDec moneyQuant)
                 sharesOut := some sharesOutDec
                 feeAmount := feeDec
                 avgPriceBps := pyRound (grossInDec / sharesOutDec * 10000)
                 preProbBps := preProbBps
                 postProbBps := bpsFromProbabilities postProbs
                 optionIds := st.optionIds
                 optionIndexes := st.optionIndexes
                 noBuyDeltas := some deltas }
      else do
        let delta ← buyAmountToDeltaQ st.q st.b (targetIdx : ℤ) netFloat
        if ¬(0 < delta) then
          .error (.math "Amount too low to produce any shares (after fees / rounding)")
        else do
          let qPost := st.q.set targetIdx (st.q.getD targetIdx 0 + delta)
          let postProbs ← prices qPost st.b
          let sharesOutDec := quantizeShares delta
          pure { marketId := st.marketId, poolId := st.poolId
                 optionId := st.optionIds.getD targetIdx ""
                 side := "buy"
                 amountIn := some (quantizeMoneyUp grossInDec moneyQuant)
                 sharesOut := some sharesOutDec
                 feeAmount := feeDec
                 avgPriceBps := pyRound (grossInDec / sharesOutDec * 10000)
                 preProbBps := preProbBps
                 postProbBps := bpsFromProbabilities postProbs
                 optionIds := st.optionIds
                 optionIndexes := st.optionIndexes }

/-- The BUY-with-`shares` branch of `quote_from_state`. -/
noncomputable def quoteBuyShares (st : PoolState) (targetIdx : ℕ)
    (oneMinusFee : ℝ) (preProbBps : List ℤ) (sharesDec : ℝ)
    (moneyQuant : ℝ) : Except QErr QuoteRes :=
  if sharesDec ≤ 0 then .error (.input "shares must be > 0")
  else do
    let sharesFloat := sharesDec
    let qPost := st.q.set targetIdx (st.q.getD targetIdx 0 + sharesFloat)
    let netCostFloat := cost qPost st.b - cost st.q st.b
    if ¬(0 < netCostFloat) then .error (.math "invalid net cost for buy(shares)")
    else do
      let netCostDec := quantizeMoneyUp netCostFloat moneyQuant
      if oneMinusFee ≤ 0 then .error (.input "fee too high")
      else do
        let grossInDec := quantizeMoneyUp (netCostDec / oneMinusFee) moneyQuant
        let feeDec := grossInDec - netCostDec
        let postProbs ← prices qPost st.b
        pure { marketId := st.marketId, poolId := st.poolId
               optionId := st.optionIds.getD targetIdx ""
               side := "buy"
               amountIn := some grossInDec
               sharesOut := some sharesDec
               feeAmount := feeDec
               avgPriceBps := pyRound (grossInDec / sharesFloat * 10000)
               preProbBps := preProbBps
               postProbBps := bpsFromProbabilities postProbs
               optionIds := st.optionIds
               optionIndexes := st.optionIndexes }

/-- The SELL-with-`shares` branch of `quote_from_state` (standard and
exclusive-event NO-side). -/
noncomputable def quoteSellShares (st : PoolState) (targetIdx : ℕ)
    (feeRate : ℝ) (preProbBps : List ℤ) (sharesDec : ℝ) (moneyQuant : ℝ)
    (isNoSide : Bool) : Except QErr QuoteRes :=
  if sharesDec ≤ 0 then .error (.input "shares must be > 0")
  else
    let sharesFloat := sharesDec
    if isNoSide ∧ st.isExclusive then do
      let n := st.q.length
      let probs ← prices st.q st.b
      let otherProbSum := ∑ j ∈ (Finset.range n).erase targetIdx, probs.getD j 0
      if otherProbSum ≤ 0 then
        .error (.math "No other options available for No sell")
      else do
        let deltas := (List.range n).map (fun j =>
          if j = targetIdx then 0
          else -(sharesFloat * (probs.getD j 0 / otherProbSum)))
        let qPost := applyDeltas st.q deltas
        let grossFloat := cost st.q st.b - cost qPost st.b
        if ¬(0 < grossFloat) then
          .error (.math "invalid gross proceeds for sell No(shares)")
        else do
          let grossDec := quantizeMoneyDown grossFloat moneyQuant
          let feeDec := quantizeMoneyUp (grossDec * feeRate) moneyQuant
          let netOutDec := quantizeMoneyDown (grossDec - feeDec) moneyQuant
          if netOutDec ≤ 0 then .error (.math "Proceeds too low after fees / rounding")
          else do
            let postProbs ← prices qPost st.b
            pure { marketId := st.marketId, poolId := st.poolId
                   optionId := st.optionIds.getD targetIdx ""
                   side := "sell", isNoSide := true
                   amountOut := some netOutDec
                   sharesIn := some sharesDec
                   feeAmount := feeDec
                   avgPriceBps := pyRound (netOutDec / sharesFloat * 10000)
                   preProbBps := preProbBps
                   postProbBps := bpsFromProbabilities postProbs
                   optionIds := st.optionIds
                   optionIndexes := st.optionIndexes
                   noSellDeltas := some deltas }
    else do
      let qPost := st.q.set targetIdx (st.q.getD targetIdx 0 - sharesFloat)
      let grossFloat := cost st.q st.b - cost qPost st.b
      if ¬(0 < grossFloat) then
        .error (.math "invalid gross proceeds for sell(shares)")
      else do
        let grossDec := quantizeMoneyDown grossFloat moneyQuant
        let feeDec := quantizeMoneyUp (grossDec * feeRate) moneyQuant
        let netOutDec := quantizeMoneyDown (grossDec - feeDec) moneyQuant
        if netOutDec ≤ 0 then .error (.math "Proceeds too low after fees / rounding")
        else do
          let postProbs ← prices qPost st.b
          pure { marketId := st.marketId, poolId := st.poolId
                 optionId := st.optionIds.getD targetIdx ""
                 side := "sell"
                 amountOut := some netOutDec
                 sharesIn := some sharesDec
                 feeAmount := feeDec
                 avgPriceBps := pyRound (netOutDec / sharesFloat * 10000)
                 preProbBps := preProbBps
                 postProbBps := bpsFromProbabilities postProbs
                 optionIds := st.optionIds
                 optionIndexes := st.optionIndexes }

/-- The SELL-with-desired-net-amount branch of `quote_from_state` (the
closed-form sell inverse; see the spec-modelled `_max_gross_payout` and
`_solve_sell_shares_for_gross_payout`). -/
noncomputable def quoteSellAmount (st : PoolState) (targetIdx : ℕ)
    (feeRate oneMinusFee : ℝ) (preProbBps : List ℤ) (pK : ℝ)
    (desiredNetOutRaw : ℝ) (moneyQuant : ℝ) : Except QErr QuoteRes :=
  if desiredNetOutRaw ≤ 0 then
    .error (.input "amount_in (desired amount_out) must be > 0")
  else
    let desiredNetOutDec := quantizeMoneyDown desiredNetOutRaw moneyQuant
    if oneMinusFee ≤ 0 then .error (.input "fee too high")
    else
      let grossNeededDec := quantizeMoneyUp (desiredNetOutDec / oneMinusFee) moneyQuant
      let grossNeededFloat := grossNeededDec
      let maxGross := maxGrossPayout pK st.b
      if maxGross ≤ grossNeededFloat then
        .error (.math "desired amount_out too large")
      else
        let sharesNeeded := solveSellSharesForGrossPayout pK st.b grossNeededFloat
        if ¬(0 < sharesNeeded) then
          .error (.math "invalid shares_in solved for sell(amount_out)")
        else do
          let sharesNeededDec := quantizeShares sharesNeeded
          let qPost := st.q.set targetIdx (st.q.getD targetIdx 0 - sharesNeededDec)
          let grossFloat := cost st.q st.b - cost qPost st.b
          let grossDec := quantizeMoneyDown grossFloat moneyQuant
          let feeDec := quantizeMoneyUp (grossDec * feeRate) moneyQuant
          let netOutDec := quantizeMoneyDown (grossDec - feeDec) moneyQuant
          let postProbs ← prices qPost st.b
          pure { marketId := st.marketId, poolId := st.poolId
                 optionId := st.optionIds.getD targetIdx ""
                 side := "sell"
                 amountOut := some netOutDec
                 sharesIn := some sharesNeededDec
                 feeAmount := feeDec
                 avgPriceBps := pyRound (netOutDec / sharesNeededDec * 10000)
                 preProbBps := preProbBps
                 postProbBps := bpsFromProbabilities postProbs
                 optionIds := st.optionIds
                 optionIndexes := st.optionIndexes
                 requestedAmountOut := some desiredNetOutDec
                 grossNeeded := some grossNeededDec }

/-- `quote_from_state(state, ...)` from `quote_core.py`: the pure quote
function.  The head performs, in source order, the side check, the
exactly-one-of-`amount_in`/`shares` check, the fee validation
(`_fee_rate_from_bps`), target resolution, and the pre-trade price
snapshot; it then dispatches to the four trade branches.
`float`/`Decimal` round-trips of the source are identities over the reals;
the `isfinite` guards of the source cannot fire over the reals and are
subsumed by the accompanying sign checks, which are kept. -/
noncomputable def quoteFromState (st : PoolState)
    (optionId : Option String := none) (optionIndex : Option ℤ := none)
    (side : String := "buy") (amountIn : Option ℝ := none)
    (shares : Option ℝ := none) (moneyQuant : ℝ := 0.01)
    (isNoSide : Bool := false) : Except QErr QuoteRes :=
  let sideL := Py.pyLower side
  if sideL ≠ "buy" ∧ sideL ≠ "sell" then
    .error (.input "side must be buy or sell")
  else if (amountIn.isNone ∧ shares.isNone) ∨ (amountIn.isSome ∧ shares.isSome) then
    .error (.input "provide exactly one of amount_in or shares")
  else do
    let feeRate ← feeRateFromBps st.feeBps
    let oneMinusFee := 1 - feeRate
    let targetIdx ← resolveTargetIdx st optionId optionIndex
    let preProbs ← prices st.q st.b
    let preProbBps := bpsFromProbabilities preProbs
    let pK := preProbs.getD targetIdx 0
    if sideL = "buy" then
      match amountIn with
      | some grossInDec =>
        quoteBuyAmount st targetIdx feeRate preProbBps grossInDec moneyQuant isNoSide
      | none =>
        quoteBuyShares st targetIdx oneMinusFee preProbBps (shares.getD 0) moneyQuant
    else
      match shares with
      | some sharesDec =>
        quoteSellShares st targetIdx feeRate preProbBps sharesDec moneyQuant isNoSide
      | none =>
        quoteSellAmount st targetIdx feeRate oneMinusFee preProbBps pK
          (amountIn.getD 0) moneyQuant

end QuoteLayer

namespace Exec

/-- A `markets` row, restricted to the columns the trade and settlement
paths read or write (`models/markets.py`). -/
structure MarketM where
  status : String
  isHidden : Bool := false
  tradingDeadline : Option ℤ := none
  resolvedAt : Option ℤ := none
  resolvedOptionIndex : Option ℤ := none
  settledAt : Option ℤ := none
deriving DecidableEq, Repr

/-- An `events` row, restricted to the columns read by the trade and
settlement paths. -/
structure EventM where
  status : String
  isHidden : Bool := false
  tradingDeadline : Option ℤ := none
  groupRule : Option String := none
deriving DecidableEq, Repr

/-- A `market_options` row, restricted to the columns the settlement and
trade paths read. -/
structure OptionM where
  id : ℕ
  optionIndex : ℤ
  side : Option String := none
  isActive : Bool := true
deriving DecidableEq, Repr

/-- The database rows touched by one `execute_buy` transaction: the market
and (optional) event row, the target option row, the pool (`b`,
`pool_cash`), the pool's option-state `q` column (ordered by pool index),
and the caller's balance and position rows.  Money and shares columns are
`Decimal` in the source; exact rationals here. -/
structure ExecState where
  market : MarketM
  event : Option EventM := none
  option : OptionM
  b : ℚ
  q : List ℚ
  poolCash : ℚ
  balance : ℚ
  posShares : ℚ
  posCostBasis : ℚ
deriving DecidableEq, Repr

/-- The `execute_buy` request: amount, slippage knobs, and the resolved
pool index of the (YES-mapped) target outcome.  `target_idx` abstracts the
source's `option_id_to_idx` / `no_to_yes_option_id` resolution, which was
verified on the quote layer (`resolveTargetIdx`). -/
structure BuyReq where
  amountIn : ℚ
  minSharesOut : Option ℚ := none
  maxSlippageBps : Option ℤ := none
  targetIdx : ℕ
  isNoSide : Bool := false
deriving DecidableEq, Repr

/-- The fields of the quote dict that `execute_buy` consumes.  The quote is
produced by the float-domain `quote_from_state` (verified separately on the
quote layer); execution parses its values back into `Decimal`, so the oracle
carries rationals. -/
structure QuoteOut where
  sharesOut : ℚ
  feeAmount : ℚ := 0
  avgPriceBps : ℤ := 0
  preProbBps : List ℤ := []
  noBuyDeltas : Option (List ℚ) := none
deriving DecidableEq, Repr

/-- The quote oracles `execute_buy` can actually receive from
`quote_from_state` for a buy: the source returns the quote dict only after
computing `avg_price_bps` (`QuoteLayer.avgPriceBpsE`), whose float division
raises `ZeroDivisionError` on zero quantized shares, and the quantized
`shares_out` of the positive `delta` (or positive `total_shares`) is
nonnegative — so every quote dict that reaches `execute_buy` carries
`shares_out > 0` (`Helper.avgPriceBpsE_shares_pos`); a zero-share delta
surfaces as an exception wrapped into `QUOTE_MATH_ERROR` instead. -/
def realizableQuote (quote : Except String QuoteOut) : Prop :=
  ∀ qo, quote = .ok qo → 0 < qo.sharesOut

/-- The receipt dict returned by a successful `execute_buy`. -/
structure BuyReceipt where
  amountIn : ℚ
  sharesOut : ℚ
  feeAmount : ℚ
  avgPriceBps : ℤ
  balanceAvailable : ℚ
  positionShares : ℚ
  positionCostBasis : ℚ
deriving DecidableEq, Repr

/-- The market/event/option validation of `_lock_market_and_option` in
`execution.py`, in source order: event active and not hidden, market active
and not hidden, trading deadline (market's, else event's) not passed,
option active.  Returns the failing `ExecutionError` code, if any. -/
def validateMarketOption (st : ExecState) (now : ℤ) : Option String :=
  if (match st.event with
      | some ev => ev.status != "active" || ev.isHidden
      | none => false) then some "EVENT_NOT_ACTIVE"
  else if st.market.status ≠ "active" ∨ st.market.isHidden then some "MARKET_NOT_ACTIVE"
  else
    match st.market.tradingDeadline <|> (st.event.bind (fun ev => ev.tradingDeadline)) with
    | some deadline =>
      if deadline ≤ now then some "MARKET_CLOSED"
      else if ¬st.option.isActive then some "OPTION_NOT_ACTIVE" else none
    | none => if ¬st.option.isActive then some "OPTION_NOT_ACTIVE" else none

/-- The `max_slippage_bps` check of `execute_buy`: compare `avg_price_bps`
against the pre-trade reference probability (or its NO-side complement),
failing with `SLIPPAGE_PROTECTION` when the reference is unavailable,
non-positive, or exceeded.  Returns the error code, if any. -/
def maxSlippageCheck (req : BuyReq) (qo : QuoteOut) (ms : ℤ) : Option String :=
  let expectedBps : Option ℤ :=
    if req.isNoSide then
      if req.targetIdx < qo.preProbBps.length then
        some (10000 - qo.preProbBps.getD req.targetIdx 0)
      else none
    else
      if req.targetIdx < qo.preProbBps.length then
        some (qo.preProbBps.getD req.targetIdx 0)
      else none
  match expectedBps with
  | none => some "SLIPPAGE_PROTECTION"
  | some e =>
    if e ≤ 0 then some "SLIPPAGE_PROTECTION"
    else if (e : ℚ) * ((10000 + ms : ℤ) : ℚ) / 10000 < (qo.avgPriceBps : ℚ) then
      some "SLIPPAGE_PROTECTION"
    else none

/-- The NO-side `q` bulk update of `execute_buy` (`for idx, delta in
enumerate(no_buy_deltas): if delta > 0: q += delta`).  Entries of `q`
beyond the delta vector are unchanged; a delta vector longer than the state
list would raise `IndexError` in the source (aborting the transaction),
which the guard in `executeBuy` reflects. -/
def applyNoBuyDeltas (q : List ℚ) (ds : List ℚ) : List ℚ :=
  (List.range q.length).map (fun i =>
    let d := ds.getD i 0
    if 0 < d then q.getD i 0 + d else q.getD i 0)

/-- The `_to_decimal` argument guards of `execute_buy` (`amount_in`,
`min_shares_out` when supplied, and the `max_slippage_bps` parse), in source
order. -/
def checkBuyParams (req : BuyReq) : Except String Unit :=
  if req.amountIn ≤ 0 then .error "INVALID_PARAM"
  else if (match req.minSharesOut with | some m => decide (m ≤ 0) | none => false) then
    .error "INVALID_PARAM"
  else if (match req.maxSlippageBps with | some s => decide (s < 0) | none => false) then
    .error "INVALID_PARAM"
  else .ok ()

/-- The pre-quote steps of `execute_buy`, in source order:
`_lock_market_and_option` validation, the `_lock_pool_state` liquidity and
option-state checks, and the balance-sufficiency check after
`_lock_balance`. -/
def checkPreQuote (st : ExecState) (req : BuyReq) (now : ℤ) : Except String Unit :=
  match validateMarketOption st now with
  | some code => .error code
  | none =>
    if st.b ≤ 0 then .error "POOL_INVALID"
    else if st.q.isEmpty then .error "POOL_STATE_NOT_FOUND"
    else if st.balance < req.amountIn then .error "INSUFFICIENT_BALANCE"
    else .ok ()

/-- The quote step of `execute_buy`: any exception from `quote_from_state`
is wrapped into `QUOTE_MATH_ERROR`; a non-positive quoted `shares_out`
fails with `AMOUNT_TOO_LOW`. -/
def checkQuote (quote : Except String QuoteOut) : Except String QuoteOut :=
  match quote with
  | .error _ => .error "QUOTE_MATH_ERROR"
  | .ok qo =>
    if qo.sharesOut ≤ 0 then .error "AMOUNT_TOO_LOW"
    else .ok qo

/-- The target-index membership check and the two slippage-protection
checks of `execute_buy` (`min_shares_out` first, then `max_slippage_bps`),
in source order. -/
def checkTargetAndSlippage (st : ExecState) (req : BuyReq) (qo : QuoteOut) :
    Except String Unit :=
  if ¬(req.targetIdx < st.q.length) then .error "POOL_MISMATCH"
  else if (match req.minSharesOut with
           | some m => decide (qo.sharesOut < m)
           | none => false) then .error "SLIPPAGE_PROTECTION"
  else
    match (match req.maxSlippageBps with
           | some ms => maxSlippageCheck req qo ms
           | none => none) with
    | some code => .error code
    | none => .ok ()

/-- The write phase of `execute_buy`: balance debit, position credit, the
`q` update (single target outcome, or the `no_buy_deltas` bulk update for a
NO-side buy with a non-empty delta list), and the `pool_cash` credit. -/
def applyBuyMutations (st : ExecState) (req : BuyReq) (qo : QuoteOut) :
    Except String (ExecState × BuyReceipt) :=
  let balance' := st.balance - req.amountIn
  let posShares' := st.posShares + qo.sharesOut
  let posCost' := st.posCostBasis + req.amountIn
  match
    (if req.isNoSide && (match qo.noBuyDeltas with
                         | some ds => !ds.isEmpty
                         | none => false) then
      match qo.noBuyDeltas with
      | some ds =>
        if st.q.length < ds.length then none  -- IndexError in the source
        else some (applyNoBuyDeltas st.q ds)
      | none => none
    else
      some (st.q.set req.targetIdx
        (st.q.getD req.targetIdx 0 + qo.sharesOut))) with
  | none => .error "INDEX_ERROR"
  | some q' =>
    .ok ({ st with
            balance := balance'
            posShares := posShares'
            posCostBasis := posCost'
            q := q'
            poolCash := st.poolCash + req.amountIn },
         { amountIn := req.amountIn
           sharesOut := qo.sharesOut
           feeAmount := qo.feeAmount
           avgPriceBps := qo.avgPriceBps
           balanceAvailable := balance'
           positionShares := posShares'
           positionCostBasis := posCost' })

/-- `execute_buy(...)` from `execution.py`, as a state-passing function over
the rows its transaction locks, composed of the source's phases in source
order.  The quote step (pure float math, verified on the quote layer)
enters as the `quote` argument.  The returned `Except` error is the
`ExecutionError.code`; by `transaction.atomic()`, an error rolls the
database back to the input state (see `buyFinalState`). -/
def executeBuy (st : ExecState) (req : BuyReq)
    (quote : Except String QuoteOut) (now : ℤ) :
    Except String (ExecState × BuyReceipt) := do
  let _ ← checkBuyParams req
  let _ ← checkPreQuote st req now
  let qo ← checkQuote quote
  let _ ← checkTargetAndSlippage st req qo
  applyBuyMutations st req qo

/-- The database state observable after the `execute_buy` call returns or
raises: `transaction.atomic()` commits the mutated state on success and
rolls every write back on an exception. -/
def buyFinalState (st : ExecState) (req : BuyReq)
    (quote : Except String QuoteOut) (now : ℤ) : ExecState :=
  match executeBuy st req quote now with
  | .ok (st', _) => st'
  | .error _ => st

end Exec

namespace Settle

open Exec (MarketM EventM OptionM)

/-- A `positions` row for the settled market: owner, option and share count
(`cost_basis` is not read by settlement). -/
structure PositionM where
  user : ℕ
  optionId : ℕ
  shares : ℚ
deriving DecidableEq, Repr

/-- A `market_settlements` row (the settlement audit record). -/
structure SettlementRow where
  settlementTxId : String
  totalPayout : ℚ
  poolCashUsed : ℚ
  collateralUsed : ℚ
  settledAt : ℤ
deriving DecidableEq, Repr

/-- The pool columns settlement reads and writes. -/
structure PoolM where
  poolCash : ℚ
  collateralAmount : ℚ
  status : String := "active"
deriving DecidableEq, Repr

/-- The database rows one settlement transaction touches: the market and its
(optional) event row, its options, the pool, the market's positions, the
per-user balances in the pool's collateral token (`balances u` is user `u`'s
`available_amount`), and the market's settlement row if one exists. -/
structure SettleState where
  market : MarketM
  event : Option EventM := none
  options : List OptionM
  pool : PoolM
  positions : List PositionM
  balances : ℕ → ℚ
  settlement : Option SettlementRow := none

/-- Settlement failures (`SettlementError`).  `insufficientFunds` carries the
numbers interpolated into the source's message: the remaining amount needed
after pool cash, the available collateral, the pool cash and the total
payout. -/
inductive SettleErr where
  | insufficientFunds (need available poolCash totalPayout : ℚ)
  | err (code : String)
deriving DecidableEq, Repr

/-- The payload dict returned by `_settle_market_internal`. -/
structure SettlePayload where
  settlementTxId : String
  totalPayout : ℚ
  poolCashUsed : ℚ
  collateralUsed : ℚ
  alreadySettled : Bool
deriving DecidableEq, Repr

/-- The payload dict returned by `_resolve_market_internal`. -/
structure ResolvePayload where
  status : String
  resolvedOptionIndex : Option ℤ
  alreadyResolved : Bool
deriving DecidableEq, Repr

/-- `_is_no_option(market, option)` from `settlement.py`: an option counts
as a NO outcome when its stripped, lowercased `side` is `"no"`; when the
stripped `side` is empty (including `side` null), fall back to the binary
convention NO = index 0. -/
def isNoOption (_market : MarketM) (option : OptionM) : Bool :=
  let side := Py.pyLower (Py.pyStrip (option.side.getD ""))
  if side ≠ "" then side == "no"
  else option.optionIndex == 0

/-- The cached payload for an existing settlement row (`already_settled`). -/
def cachedPayload (ex : SettlementRow) : SettlePayload :=
  { settlementTxId := ex.settlementTxId
    totalPayout := ex.totalPayout
    poolCashUsed := ex.poolCashUsed
    collateralUsed := ex.collateralUsed
    alreadySettled := true }

/-- The winner-credit loop of `_settle_market_internal`: each winning
position's holder is credited `position.shares` (1 unit of collateral token
per winning share) with an atomic `F()` increment. -/
def creditWinners (balances : ℕ → ℚ) (winners : List PositionM) : ℕ → ℚ :=
  winners.foldl (fun f p => Function.update f p.user (f p.user + p.shares)) balances

/-- `_resolve_market_internal(...)` from `settlement.py` (minus the
display-only option-stats refresh): idempotent early return when the market
is already resolved and settled; status precondition; winning-option lookup
and activity check; then write `resolved_at` / `resolved_option_index`, and
— unless `skip_status_update` — flip market (and event) status to
`resolved`.  The winning option is selected by `option_index`; selection by
`winning_option_id` reaches the same row. -/
def resolveMarketInternal (st : SettleState) (winningOptionIndex : ℤ)
    (skipStatusUpdate : Bool) (now : ℤ) :
    Except SettleErr (SettleState × ResolvePayload) :=
  if st.market.status = "resolved" ∧ st.market.settledAt.isSome then
    .ok (st, { status := st.market.status
               resolvedOptionIndex := st.market.resolvedOptionIndex
               alreadyResolved := true })
  else if st.market.status ≠ "active" ∧ st.market.status ≠ "closed" ∧
      st.market.status ≠ "resolved" then
    .error (.err "INVALID_STATUS")
  else
    match st.options.find? (fun o => o.optionIndex == winningOptionIndex) with
    | none => .error (.err "OPTION_NOT_FOUND")
    | some winningOption =>
      if ¬winningOption.isActive then .error (.err "OPTION_NOT_ACTIVE")
      else
        let market' : MarketM :=
          { st.market with
              resolvedAt := some now
              resolvedOptionIndex := some winningOption.optionIndex
              status := if skipStatusUpdate then st.market.status else "resolved" }
        let event' :=
          if skipStatusUpdate then st.event
          else st.event.map (fun ev => { ev with status := "resolved" })
        .ok ({ st with market := market', event := event' },
             { status := market'.status
               resolvedOptionIndex := some winningOption.optionIndex
               alreadyResolved := false })

/-- The idempotency gate of `_settle_market_internal`: when the market is
already settled and its settlement row exists, the cached payload is
returned (`already_settled: true`).  When `settled_at` is set but no row
exists, the source falls through to settle afresh. -/
def cachedCheck (st : SettleState) : Option SettlePayload :=
  if st.market.settledAt.isSome then st.settlement.map cachedPayload else none

/-- The funding waterfall of `_settle_market_internal`: pool cash is used
first (`pool_cash_used = min(pool_cash, total_payout)` when the payout is
positive), the remainder draws on collateral, and a remainder exceeding the
collateral fails with `INSUFFICIENT_FUNDS` carrying the numbers of the
source's message.  Returns `(pool_cash_used, collateral_used)`. -/
def settlementWaterfall (poolCash collateralAmount totalPayout : ℚ) :
    Except SettleErr (ℚ × ℚ) :=
  let poolCashUsed := if 0 < totalPayout then min poolCash totalPayout else 0
  let remaining := totalPayout - poolCashUsed
  if 0 < remaining ∧ collateralAmount < remaining then
    .error (.insufficientFunds remaining collateralAmount poolCash totalPayout)
  else .ok (poolCashUsed, if 0 < remaining then remaining else 0)

/-- The write phase of `_settle_market_internal`: credit every winner their
shares, debit the pool's cash and collateral by the amounts used, close the
pool when requested, then write the settlement audit row, stamp
`settled_at`, and — when `update_market_status` — flip the market (and,
when additionally `update_event_status`, the event) to `resolved`.  The
`some ex` case is the source's `IntegrityError` fallback (a settlement row
existing despite `settled_at` being unset): the credits of the open
transaction stand and the existing row's payload is returned. -/
def applySettlement (st : SettleState) (settlementTxId : String)
    (updateMarketStatus updateEventStatus closePool : Bool) (now : ℤ)
    (winners : List PositionM) (totalPayout poolCashUsed collateralUsed : ℚ) :
    SettleState × SettlePayload :=
  let balances' := creditWinners st.balances winners
  let pool' : PoolM :=
    { poolCash := st.pool.poolCash - poolCashUsed
      collateralAmount := st.pool.collateralAmount - collateralUsed
      status := if closePool then "closed" else st.pool.status }
  match st.settlement with
  | some ex => ({ st with pool := pool', balances := balances' }, cachedPayload ex)
  | none =>
    let row : SettlementRow :=
      { settlementTxId := settlementTxId
        totalPayout := totalPayout
        poolCashUsed := poolCashUsed
        collateralUsed := collateralUsed
        settledAt := now }
    let market' : MarketM :=
      { st.market with
          settledAt := some now
          status := if updateMarketStatus then "resolved" else st.market.status }
    let event' :=
      if updateMarketStatus ∧ updateEventStatus then
        st.event.map (fun ev => { ev with status := "resolved" })
      else st.event
    ({ st with market := market', event := event', pool := pool'
               balances := balances', settlement := some row },
     { settlementTxId := settlementTxId
       totalPayout := totalPayout
       poolCashUsed := poolCashUsed
       collateralUsed := collateralUsed
       alreadySettled := false })

/-- `_settle_market_internal(...)` from `settlement.py` (minus the
display-only stats refresh), composed of its phases in source order: the
idempotency gate, the `resolved_option_index` precondition, the
winning-option lookup, `total_payout = Σ shares` over the winning positions
with positive shares, the funding waterfall, and the write phase. -/
def settleMarketInternal (st : SettleState) (settlementTxId : String)
    (updateMarketStatus : Bool) (updateEventStatus : Bool) (closePool : Bool)
    (now : ℤ) : Except SettleErr (SettleState × SettlePayload) :=
  match cachedCheck st with
  | some payload => .ok (st, payload)
  | none =>
    match st.market.resolvedOptionIndex with
    | none => .error (.err "NO_RESOLVED_OPTION")
    | some resolvedIdx =>
      match st.options.find? (fun o => o.optionIndex == resolvedIdx) with
      | none => .error (.err "OPTION_NOT_FOUND")
      | some winningOption =>
        let winners := st.positions.filter
          (fun p => p.optionId == winningOption.id && decide (0 < p.shares))
        let totalPayout := (winners.map (fun p => p.shares)).sum
        match settlementWaterfall st.pool.poolCash st.pool.collateralAmount
            totalPayout with
        | .error e => .error e
        | .ok (poolCashUsed, collateralUsed) =>
          .ok (applySettlement st settlementTxId updateMarketStatus
            updateEventStatus closePool now winners totalPayout poolCashUsed
            collateralUsed)

/-- `settle_market(market_id, settlement_tx_id, ...)` from `settlement.py`:
requires the market to be `resolved`, then runs the internal settlement with
`update_market_status=False`, `update_event_status=False`,
`close_pool=True`.  `settlementTxId` stands for the supplied or
auto-generated transaction id. -/
def settleMarket (st : SettleState) (settlementTxId : String) (now : ℤ) :
    Except SettleErr (SettleState × SettlePayload) :=
  if st.market.status ≠ "resolved" then .error (.err "NOT_RESOLVED")
  else settleMarketInternal st settlementTxId false false true now

/-- `resolve_and_settle_market(...)` from `settlement.py`: one atomic
transaction that resolves with `skip_status_update=True` (the winning index
is written but the status is left alone) and then settles with
`update_market_status=True`, so the status flips to `resolved` only after
the payout has completed. -/
def resolveAndSettleMarket (st : SettleState) (winningOptionIndex : ℤ)
    (settlementTxId : String) (now : ℤ) :
    Except SettleErr (SettleState × (ResolvePayload × SettlePayload)) := do
  let (st1, r) ← resolveMarketInternal st winningOptionIndex true now
  let (st2, s) ← settleMarketInternal st1 settlementTxId true true true now
  pure (st2, (r, s))

/-- The database state observable after `resolve_and_settle_market` returns
or raises: `transaction.atomic()` commits on success and rolls every write
back on an exception. -/
def resolveAndSettleFinal (st : SettleState) (winningOptionIndex : ℤ)
    (settlementTxId : String) (now : ℤ) : SettleState :=
  match resolveAndSettleMarket st winningOptionIndex settlementTxId now with
  | .ok (st', _) => st'
  | .error _ => st

/-- `resolve_and_settle_market_partial(...)` from `settlement.py` (minus the
display-only probability refresh of the exclusive pool and the event-status
sync, which renormalize rows of the event's other markets): group-rule
validation, winning-option lookup and activity check, the NO-only guard for
exclusive events, then resolve (status skipped) + settle
(`update_market_status=True`, `update_event_status=False`, the pool kept
open for exclusive events).  `settlementTxId` stands for the auto-generated
transaction id. -/
def resolveAndSettleMarketOne (st : SettleState) (winningOptionIndex : ℤ)
    (settlementTxId : String) (now : ℤ) :
    Except SettleErr (SettleState × (ResolvePayload × SettlePayload)) :=
  match st.event with
  | none => .error (.err "EVENT_NOT_FOUND")
  | some event =>
    let groupRule := Py.pyLower (Py.pyStrip (event.groupRule.getD ""))
    if groupRule ≠ "exclusive" ∧ groupRule ≠ "independent" then
      .error (.err "INVALID_GROUP_RULE")
    else
      match st.options.find? (fun o => o.optionIndex == winningOptionIndex) with
      | none => .error (.err "OPTION_NOT_FOUND")
      | some winningOption =>
        if ¬winningOption.isActive then .error (.err "OPTION_NOT_ACTIVE")
        else if groupRule = "exclusive" ∧ ¬isNoOption st.market winningOption then
          .error (.err "INVALID_PARTIAL_OPTION")
        else do
          let (st1, r) ← resolveMarketInternal st winningOption.optionIndex true now
          if r.alreadyResolved ∧ r.resolvedOptionIndex ≠ some winningOption.optionIndex then
            .error (.err "ALREADY_RESOLVED")
          else do
            let (st2, s) ← settleMarketInternal st1 settlementTxId true false
              (groupRule ≠ "exclusive") now
            pure (st2, (r, s))

/-- The NO-outcome rule exactly as the claim states it, for comparison with
the source's `_is_no_option`: an option whose `side` field is set counts as
NO exactly when the trimmed, lowercased `side` equals `"no"`; an option
whose `side` field is empty or null counts as NO exactly when its
`option_index` is `0`. -/
def claimNoOptionRule (option : OptionM) : Bool :=
  match option.side with
  | some s =>
    if s ≠ "" then Py.pyLower (Py.pyStrip s) == "no" else option.optionIndex == 0
  | none => option.optionIndex == 0

/-- The NO-outcome rule as amended: only the trimmed `side` matters — if it
is nonempty it must equal `"no"`; otherwise (null, empty, or
whitespace-only `side`) the option counts as NO exactly when its
`option_index` is `0`. -/
def amendedNoOptionRule (option : OptionM) : Bool :=
  let s := Py.pyLower (Py.pyStrip (option.side.getD ""))
  if s ≠ "" then s == "no" else option.optionIndex == 0

end Settle

namespace Fixtures

/-- A live binary market with an event-less, well-funded pool: the base
state for concrete execution runs. -/
def buyState : Exec.ExecState :=
  { market := { status := "active" }
    event := none
    option := { id := 1, optionIndex := 1 }
    b := 100
    q := [0, 0]
    poolCash := 10
    balance := 100
    posShares := 0
    posCostBasis := 0 }

/-- A plain buy of 10 on pool index 1
(no slippage knobs). -/
def buyReq1 : Exec.BuyReq := { amountIn := 10, targetIdx := 1 }

/-- A quote oracle answering 5 shares. -/
def quoteOk5 : Exec.QuoteOut := { sharesOut := 5 }

/-- The state `buyState` after buying 10 for 5 shares on index 1. -/
def buyStateAfter : Exec.ExecState :=
  { buyState with balance := 90, posShares := 5, posCostBasis := 10
                  q := [0, 5], poolCash := 20 }

/-- The receipt of that buy. -/
def buyReceipt1 : Exec.BuyReceipt :=
  { amountIn := 10, sharesOut := 5, feeAmount := 0, avgPriceBps := 0
    balanceAvailable := 90, positionShares := 5, positionCostBasis := 10 }

/-- A buy of 10 with `min_shares_out = 7`. -/
def buyReqMin7 : Exec.BuyReq := { amountIn := 10, minSharesOut := some 7, targetIdx := 1 }

/-- A resolved-but-unsettled market (winning index 1) whose pool holds
cash 100 and collateral 200, with two winners holding 150 and 100 shares:
the settlement-waterfall scenario of spec §8. -/
def settleSt : Settle.SettleState :=
  { market := { status := "resolved", resolvedOptionIndex := some 1 }
    event := none
    options := [{ id := 1, optionIndex := 1, side := some "yes" }]
    pool := { poolCash := 100, collateralAmount := 200 }
    positions := [{ user := 7, optionId := 1, shares := 150 },
                  { user := 8, optionId := 1, shares := 100 }]
    balances := fun _ => 0
    settlement := none }

/-- The state `settleSt` after settling: pool drained to 0 cash / 50
collateral, pool closed, both winners credited, the audit row written. -/
def settleStAfter : Settle.SettleState :=
  { market := { status := "resolved", resolvedOptionIndex := some 1
                settledAt := some 5 }
    event := none
    options := [{ id := 1, optionIndex := 1, side := some "yes" }]
    pool := { poolCash := 0, collateralAmount := 50, status := "closed" }
    positions := [{ user := 7, optionId := 1, shares := 150 },
                  { user := 8, optionId := 1, shares := 100 }]
    balances := Function.update (Function.update (fun _ => 0) 7 150) 8 100
    settlement := some { settlementTxId := "tx", totalPayout := 250
                         poolCashUsed := 100, collateralUsed := 150
                         settledAt := 5 } }

/-- The payload of that settlement. -/
def settlePayA : Settle.SettlePayload :=
  { settlementTxId := "tx", totalPayout := 250, poolCashUsed := 100
    collateralUsed := 150, alreadySettled := false }

/-- The settlement-shortfall scenario of spec §8: pool cash 50, collateral
50, winning shares 150 (market already resolved, not yet settled). -/
def shortfallSt : Settle.SettleState :=
  { market := { status := "resolved", resolvedOptionIndex := some 1 }
    event := none
    options := [{ id := 1, optionIndex := 1, side := some "yes" }]
    pool := { poolCash := 50, collateralAmount := 50 }
    positions := [{ user := 7, optionId := 1, shares := 150 }]
    balances := fun _ => 0
    settlement := none }

/-- A market that is already resolved and settled, with its settlement
audit row present. -/
def settledSt : Settle.SettleState :=
  { market := { status := "resolved", resolvedOptionIndex := some 1
                settledAt := some 3 }
    event := none
    options := [{ id := 1, optionIndex := 1, side := some "yes" }]
    pool := { poolCash := 0, collateralAmount := 50, status := "closed" }
    positions := [{ user := 7, optionId := 1, shares := 250 }]
    balances := fun _ => 0
    settlement := some { settlementTxId := "tx0", totalPayout := 250
                         poolCashUsed := 100, collateralUsed := 150
                         settledAt := 3 } }

/-- The prior settlement row of `settledSt`. -/
def settledRow : Settle.SettlementRow :=
  { settlementTxId := "tx0", totalPayout := 250, poolCashUsed := 100
    collateralUsed := 150, settledAt := 3 }

/-- An active market inside an exclusive event, with an active YES option
at index 1: the target of an invalid (non-NO) partial settlement. -/
def exclusiveSt : Settle.SettleState :=
  { market := { status := "active" }
    event := some { status := "active", groupRule := some "exclusive" }
    options := [{ id := 1, optionIndex := 1, side := some "yes" }]
    pool := { poolCash := 10, collateralAmount := 10 }
    positions := []
    balances := fun _ => 0
    settlement := none }

/-- A one-outcome pool snapshot whose `fee_bps` is 10000 (a 100% fee). -/
noncomputable def feePoolState : QuoteLayer.PoolState :=
  { marketId := "m", poolId := "p", b := 1, feeBps := 10000
    optionIds := ["1"], optionIndexes := [0], q := [0] }

/-- An option whose `side` is whitespace-only, at index 0. -/
def whitespaceSideOpt : Exec.OptionM := { id := 1, optionIndex := 0, side := some " " }

end Fixtures

namespace Helper

theorem getD_set_self {α : Type} (l : List α) (k : ℕ) (v d : α) (h : k < l.length) :
    (l.set k v).getD k d = v := by
  rw [List.getD_eq_getElem _ _ (by simpa using h)]
  exact List.getElem_set_self _

theorem getD_set_ne {α : Type} (l : List α) (k j : ℕ) (v d : α) (hne : j ≠ k) :
    (l.set k v).getD j d = l.getD j d := by
  by_cases hj : j < l.length
  · rw [List.getD_eq_getElem _ _ (by simpa using hj), List.getD_eq_getElem _ _ hj]
    exact List.getElem_set_ne (fun h => hne h.symm) _
  · rw [List.getD_eq_default _ _ (by simpa using Nat.le_of_not_lt hj),
      List.getD_eq_default _ _ (Nat.le_of_not_lt hj)]

theorem sum_map_exp_pos (l : List ℝ) (hl : l ≠ []) :
    0 < ((l.map Real.exp).sum) := by
  apply List.sum_pos
  · intro x hx
    obtain ⟨y, -, hy⟩ := List.mem_map.mp hx
    rw [← hy]
    exact Real.exp_pos y
  · simpa using hl

theorem logsumexp_eq (l : List ℝ) (hl : l ≠ []) :
    LMSR.logsumexp l = Real.log ((l.map Real.exp).sum) := by
  cases l with
  | nil => exact absurd rfl hl
  | cons x xs =>
    unfold LMSR.logsumexp
    dsimp only
    have hfun : (fun y => Real.exp (y - xs.foldl max x)) =
        fun y => Real.exp y * Real.exp (-(xs.foldl max x)) :=
      funext fun y => by rw [Real.exp_neg, Real.exp_sub, div_eq_mul_inv]
    rw [hfun, List.sum_map_mul_right,
      Real.log_mul (ne_of_gt (sum_map_exp_pos _ (by simp)))
        (ne_of_gt (Real.exp_pos _)),
      Real.log_exp]
    ring

theorem sumExp_pos (q : List ℝ) (b : ℝ) (hq : q ≠ []) : 0 < LMSR.sumExp q b := by
  unfold LMSR.sumExp
  apply List.sum_pos
  · intro x hx
    obtain ⟨y, -, hy⟩ := List.mem_map.mp hx
    rw [← hy]
    exact Real.exp_pos _
  · simpa using hq

theorem cost_eq (q : List ℝ) (b : ℝ) (hq : q ≠ []) :
    LMSR.cost q b = b * Real.log (LMSR.sumExp q b) := by
  unfold LMSR.cost LMSR.sumExp
  rw [logsumexp_eq _ (by simpa using hq), List.map_map]
  rfl

theorem getD_map_lt {α β : Type} (l : List α) (f : α → β) (k : ℕ)
    (h : k < l.length) (d : β) (d0 : α) :
    (l.map f).getD k d = f (l.getD k d0) := by
  rw [List.getD_eq_getElem _ _ (by simpa using h), List.getD_eq_getElem _ _ h,
    List.getElem_map]

theorem sum_set_real (l : List ℝ) (k : ℕ) (h : k < l.length) (v : ℝ) :
    (l.set k v).sum = l.sum - l.getD k 0 + v := by
  rw [List.sum_set, if_pos h]
  have hsplit : l.sum = (l.take k).sum + (l.getD k 0 + (l.drop (k + 1)).sum) := by
    conv_lhs => rw [← List.sum_take_add_sum_drop l k]
    rw [List.drop_eq_getElem_cons h, List.sum_cons, List.getD_eq_getElem _ _ h]
  linarith

theorem cost_set (q : List ℝ) (b : ℝ) (k : ℕ) (hk : k < q.length) (v : ℝ) :
    LMSR.cost (q.set k v) b =
      b * Real.log (LMSR.sumExp q b - Real.exp (q.getD k 0 / b) +
        Real.exp (v / b)) := by
  rw [cost_eq _ _ (List.ne_nil_of_length_pos (by
    rw [List.length_set]; omega))]
  congr 1
  unfold LMSR.sumExp
  rw [List.map_set, sum_set_real _ k (by simpa using hk) _,
    getD_map_lt q _ k hk 0 0]

theorem buyAmountToDeltaQ_ok (q : List ℝ) (b A : ℝ) (j : ℤ)
    (hb : 0 < b) (hA : 0 < A) (h0 : 0 ≤ j) (hlen : j < (q.length : ℤ)) :
    LMSR.buyAmountToDeltaQ q b j A = .ok (LMSR.buyDeltaVal q b j.toNat A) := by
  unfold LMSR.buyAmountToDeltaQ
  rw [if_neg (not_le.mpr hb), if_neg (not_le.mpr hA),
    if_neg (not_or.mpr ⟨not_lt.mpr h0, not_le.mpr hlen⟩)]

theorem exp_quad_bound (w : ℝ) (h0 : 0 ≤ w) (h1 : w ≤ 1) :
    Real.exp w ≤ 1 + w + w ^ 2 := by
  have hb := Real.exp_bound (show |w| ≤ 1 by rw [abs_of_nonneg h0]; exact h1)
    (show 0 < 2 by norm_num)
  simp only [Finset.sum_range_succ, Finset.sum_range_zero] at hb
  rw [abs_of_nonneg h0] at hb
  norm_num at hb
  have := abs_le.mp hb
  nlinarith [sq_nonneg w]

theorem two_div_exp50_lt : (2 : ℝ) / Real.exp 50 < 1e-9 := by
  have h1 : Real.exp 50 = Real.exp 1 ^ 50 := by
    rw [← Real.exp_nat_mul]
    norm_num
  have h2 : (2.7 : ℝ) ^ 50 ≤ Real.exp 1 ^ 50 :=
    pow_le_pow_left (by norm_num)
      (le_trans (by norm_num) (le_of_lt Real.exp_one_gt_d9)) 50
  have h3 : (2 : ℝ) * 1e9 < 2.7 ^ 50 := by norm_num
  have h50 : (2 : ℝ) * 1e9 < Real.exp 50 := by
    rw [h1]
    exact lt_of_lt_of_le h3 h2
  rw [div_lt_iff (Real.exp_pos 50)]
  nlinarith

theorem final_step (A v : ℝ) (hA : 0 < A) (hv : v < 2 / Real.exp 50 * A) :
    v < 1e-9 * max 1 A := by
  have hmax : A ≤ max 1 A := le_max_right 1 A
  calc v < 2 / Real.exp 50 * A := hv
    _ ≤ 2 / Real.exp 50 * max 1 A :=
        mul_le_mul_of_nonneg_left hmax (by positivity)
    _ < 1e-9 * max 1 A :=
        mul_lt_mul_of_pos_right two_div_exp50_lt
          (lt_of_lt_of_le one_pos (le_max_left 1 A))

theorem log_one_add_ge (t : ℝ) (ht : 0 < t) :
    t / (1 + t) ≤ Real.log (1 + t) := by
  have h1t : (0:ℝ) < 1 + t := by linarith
  have hinv : (0:ℝ) < (1 + t)⁻¹ := inv_pos.mpr h1t
  have := Real.log_le_sub_one_of_pos hinv
  rw [Real.log_inv] at this
  have heq : (1 + t)⁻¹ - 1 = -(t / (1 + t)) := by
    field_simp
  rw [heq] at this
  linarith

set_option maxHeartbeats 1600000 in
theorem buy_inverse_bound (b A S a t x d E : ℝ) (hb : 0 < b) (hA : 0 < A)
    (ha : 0 < a) (haS : a ≤ S)
    (ht : t = Real.exp (A / b) - 1)
    (hx : Real.exp x = t * (S / a))
    (hd : d = b * LMSR.log1pExp x)
    (hE : E = Real.exp (d / b)) :
    0 < S - a + a * E ∧
    |b * Real.log (S - a + a * E) - b * Real.log S - A| < 1e-9 * max 1 A := by
  have hS : 0 < S := lt_of_lt_of_le ha haS
  have hAb : 0 < A / b := div_pos hA hb
  have htpos : 0 < t := by
    rw [ht]
    have h1 : 1 < Real.exp (A / b) := Real.one_lt_exp_iff.mpr hAb
    linarith
  have h1t : (0 : ℝ) < 1 + t := by linarith
  have hlog1t : Real.log (1 + t) = A / b := by
    rw [ht, show 1 + (Real.exp (A / b) - 1) = Real.exp (A / b) by ring,
      Real.log_exp]
  have hA_eq : A = b * Real.log (1 + t) := by
    rw [hlog1t]
    field_simp
  have hbne : b ≠ 0 := ne_of_gt hb
  have hane : a ≠ 0 := ne_of_gt ha
  have hSne : S ≠ 0 := ne_of_gt hS
  unfold LMSR.log1pExp at hd
  by_cases hgt : x > 50
  · -- branch x > 50: the source returns x itself
    rw [if_pos hgt] at hd
    have hEval : E = t * (S / a) := by
      rw [hE, hd, mul_div_cancel_left₀ _ hbne, hx]
    have haE : a * E = t * S := by
      rw [hEval]
      field_simp
    set u := a / (S * (1 + t)) with hu
    have hS1t : 0 < S * (1 + t) := by positivity
    have hupos : 0 < u := div_pos ha hS1t
    have hS'form : S - a + a * E = S * (1 + t) * (1 - u) := by
      rw [haE, hu]
      field_simp
      ring
    have hx50 : Real.exp 50 < t * S / a := by
      rw [mul_div_assoc, ← hx]
      exact Real.exp_lt_exp.mpr hgt
    have he50pos := Real.exp_pos (50 : ℝ)
    have hae50 : Real.exp 50 * a < t * S := by
      have := (lt_div_iff ha).mp hx50
      linarith
    have hubound : u < t / (Real.exp 50 * (1 + t)) := by
      rw [hu, div_lt_div_iff hS1t (by positivity)]
      nlinarith
    have hexp50_two : (2 : ℝ) ≤ Real.exp 50 := by
      have := Real.add_one_le_exp (50 : ℝ)
      linarith
    have hu_half : u < 1 / 2 := by
      have ht1 : t < 1 + t := by linarith
      calc u < t / (Real.exp 50 * (1 + t)) := hubound
        _ ≤ 1 / 2 := by
            rw [div_le_div_iff (by positivity) (by norm_num)]
            nlinarith
    have h1u : 0 < 1 - u := by linarith
    have hS'pos : 0 < S - a + a * E := by
      rw [hS'form]
      positivity
    refine ⟨hS'pos, ?_⟩
    have hlogS' : Real.log (S - a + a * E) =
        Real.log S + Real.log (1 + t) + Real.log (1 - u) := by
      rw [hS'form, Real.log_mul (by positivity) (ne_of_gt h1u),
        Real.log_mul hSne (ne_of_gt h1t)]
    have hexpr : b * Real.log (S - a + a * E) - b * Real.log S - A =
        b * Real.log (1 - u) := by
      rw [hlogS', hlog1t]
      field_simp
      ring
    rw [hexpr]
    have hlogneg : Real.log (1 - u) < 0 := Real.log_neg h1u (by linarith)
    rw [abs_of_neg (by nlinarith : b * Real.log (1 - u) < 0)]
    have hbound1 : -Real.log (1 - u) ≤ u / (1 - u) := by
      have hinv := Real.log_le_sub_one_of_pos (inv_pos.mpr h1u)
      rw [Real.log_inv] at hinv
      have heq : (1 - u)⁻¹ - 1 = u / (1 - u) := by field_simp
      linarith [heq ▸ hinv]
    have hbound2 : u / (1 - u) ≤ 2 * u := by
      rw [div_le_iff h1u]
      nlinarith
    have hchain : -(b * Real.log (1 - u)) ≤ b * (2 * u) := by
      have hm := mul_le_mul_of_nonneg_left (le_trans hbound1 hbound2) (le_of_lt hb)
      nlinarith
    have hbtA : b * (t / (1 + t)) ≤ A := by
      rw [hA_eq]
      exact mul_le_mul_of_nonneg_left (log_one_add_ge t htpos) (le_of_lt hb)
    have hfinal1 : b * (2 * u) < 2 / Real.exp 50 * A := by
      have h2bu : b * (2 * u) < b * (2 * (t / (Real.exp 50 * (1 + t)))) := by
        apply mul_lt_mul_of_pos_left _ hb
        linarith
      have heq2 : b * (2 * (t / (Real.exp 50 * (1 + t)))) =
          2 / Real.exp 50 * (b * (t / (1 + t))) := by
        field_simp
        ring
      calc b * (2 * u) < b * (2 * (t / (Real.exp 50 * (1 + t)))) := h2bu
        _ = 2 / Real.exp 50 * (b * (t / (1 + t))) := heq2
        _ ≤ 2 / Real.exp 50 * A :=
            mul_le_mul_of_nonneg_left hbtA (by positivity)
    exact lt_of_le_of_lt hchain (final_step A _ hA hfinal1)
  · rw [if_neg hgt] at hd
    by_cases hlt : x < -50
    · -- branch x < -50: the source returns exp x
      rw [if_pos hlt] at hd
      set w := Real.exp x with hw
      have hwpos : 0 < w := Real.exp_pos x
      have hEval : E = Real.exp w := by
        rw [hE, hd, mul_div_cancel_left₀ _ hbne]
      have hwlt : w < Real.exp (-50) := by
        rw [hw]
        exact Real.exp_lt_exp.mpr hlt
      have hexpneg1 : Real.exp (-(50 : ℝ)) < 1 := by
        have h0 : Real.exp (-(50 : ℝ)) < Real.exp 0 :=
          Real.exp_lt_exp.mpr (by norm_num)
        rwa [Real.exp_zero] at h0
      have hwle1 : w ≤ 1 := le_of_lt (lt_trans hwlt hexpneg1)
      set c := a / S with hc
      have hcpos : 0 < c := div_pos ha hS
      have hcle1 : c ≤ 1 := (div_le_one hS).mpr haS
      have htcw : t = c * w := by
        rw [hx, hc]
        field_simp
        ring
      have hew1 : 1 < Real.exp w := Real.one_lt_exp_iff.mpr hwpos
      have hS'form : S - a + a * E = S * (1 + c * (Real.exp w - 1)) := by
        rw [hEval, hc]
        field_simp
        ring
      have hfac : 0 < 1 + c * (Real.exp w - 1) := by nlinarith
      have h1cw : (0 : ℝ) < 1 + c * w := by positivity
      have hS'pos : 0 < S - a + a * E := by
        rw [hS'form]
        positivity
      refine ⟨hS'pos, ?_⟩
      have hexpr : b * Real.log (S - a + a * E) - b * Real.log S - A =
          b * (Real.log (1 + c * (Real.exp w - 1)) - Real.log (1 + c * w)) := by
        rw [hS'form, Real.log_mul hSne (ne_of_gt hfac), hA_eq, htcw]
        ring
      rw [hexpr]
      have hwew : w ≤ Real.exp w - 1 := by
        have := Real.add_one_le_exp w
        linarith
      have hmono : 1 + c * w ≤ 1 + c * (Real.exp w - 1) := by nlinarith
      have hD0 : 0 ≤ Real.log (1 + c * (Real.exp w - 1)) - Real.log (1 + c * w) := by
        have := Real.log_le_log h1cw hmono
        linarith
      have hquad : Real.exp w ≤ 1 + w + w ^ 2 :=
        exp_quad_bound w (le_of_lt hwpos) hwle1
      have hDup : Real.log (1 + c * (Real.exp w - 1)) - Real.log (1 + c * w) ≤
          c * w ^ 2 := by
        have hdivpos : 0 < (1 + c * (Real.exp w - 1)) / (1 + c * w) :=
          div_pos hfac h1cw
        have hlogdiv : Real.log (1 + c * (Real.exp w - 1)) - Real.log (1 + c * w) =
            Real.log ((1 + c * (Real.exp w - 1)) / (1 + c * w)) :=
          (Real.log_div (ne_of_gt hfac) (ne_of_gt h1cw)).symm
        rw [hlogdiv]
        have hstep := Real.log_le_sub_one_of_pos hdivpos
        have hratio : (1 + c * (Real.exp w - 1)) / (1 + c * w) - 1 =
            c * (Real.exp w - 1 - w) / (1 + c * w) := by
          field_simp
          ring
        have hnum : c * (Real.exp w - 1 - w) / (1 + c * w) ≤
            c * (Real.exp w - 1 - w) := by
          apply div_le_self (by nlinarith) (by nlinarith)
        have hlast : c * (Real.exp w - 1 - w) ≤ c * w ^ 2 := by nlinarith
        linarith [hstep, hratio ▸ hstep]
      rw [abs_of_nonneg (by nlinarith : (0:ℝ) ≤ b * (Real.log (1 + c * (Real.exp w - 1)) - Real.log (1 + c * w)))]
      have htle1 : t ≤ 1 := by
        rw [htcw]
        nlinarith
      have hbtA : b * t ≤ 2 * A := by
        have hlg := log_one_add_ge t htpos
        have h2 : t / 2 ≤ t / (1 + t) := by
          rw [div_le_div_iff (by norm_num) h1t]
          nlinarith
        have h3 : b * (t / 2) ≤ b * Real.log (1 + t) :=
          mul_le_mul_of_nonneg_left (le_trans h2 hlg) (le_of_lt hb)
        rw [← hA_eq] at h3
        linarith
      have hup1 : b * (Real.log (1 + c * (Real.exp w - 1)) - Real.log (1 + c * w)) ≤
          b * (c * w ^ 2) := mul_le_mul_of_nonneg_left hDup (le_of_lt hb)
      have heqbtw : b * (c * w ^ 2) = b * t * w := by
        rw [htcw]
        ring
      have hlt2 : b * t * w < b * t * Real.exp (-50) := by
        apply mul_lt_mul_of_pos_left hwlt
        positivity
      have hfin : b * t * Real.exp (-50) ≤ 2 / Real.exp 50 * A := by
        rw [Real.exp_neg]
        have : b * t * (Real.exp 50)⁻¹ = b * t / Real.exp 50 := by ring
        rw [this]
        rw [div_le_iff (Real.exp_pos 50)]
        have h2A : 2 / Real.exp 50 * A * Real.exp 50 = 2 * A := by
          field_simp
        rw [h2A]
        linarith
      apply final_step A _ hA
      calc b * (Real.log (1 + c * (Real.exp w - 1)) - Real.log (1 + c * w)) ≤
          b * (c * w ^ 2) := hup1
        _ = b * t * w := heqbtw
        _ < b * t * Real.exp (-50) := hlt2
        _ ≤ 2 / Real.exp 50 * A := hfin
    · -- central branch: exact inverse
      rw [if_neg hlt] at hd
      have hexpos := Real.exp_pos x
      have hEval : E = 1 + Real.exp x := by
        rw [hE, hd, mul_div_cancel_left₀ _ hbne, Real.exp_log (by linarith)]
      have haE : a * E = a + t * S := by
        rw [hEval, hx]
        field_simp
      have hS'form : S - a + a * E = S * (1 + t) := by
        rw [haE]
        ring
      have hS'pos : 0 < S - a + a * E := by
        rw [hS'form]
        positivity
      refine ⟨hS'pos, ?_⟩
      have hzero : b * Real.log (S - a + a * E) - b * Real.log S - A = 0 := by
        rw [hS'form, Real.log_mul hSne (ne_of_gt h1t), hlog1t]
        field_simp
        ring
      rw [hzero, abs_zero]
      have h1 : (1 : ℝ) ≤ max 1 A := le_max_left 1 A
      nlinarith

theorem logsumexp_scaled (q : List ℝ) (b : ℝ) (hq : q ≠ []) :
    LMSR.logsumexp (q.map (fun qi => qi / b)) = Real.log (LMSR.sumExp q b) := by
  rw [logsumexp_eq _ (by simpa using hq), List.map_map]
  rfl

theorem exp_mem_le_sumExp (q : List ℝ) (b : ℝ) (k : ℕ) (hk : k < q.length) :
    Real.exp (q.getD k 0 / b) ≤ LMSR.sumExp q b := by
  apply List.single_le_sum
  · intro x hx
    obtain ⟨y, -, hy⟩ := List.mem_map.mp hx
    rw [← hy]
    exact le_of_lt (Real.exp_pos _)
  · exact List.mem_map.mpr ⟨q.getD k 0, by
      rw [List.getD_eq_getElem _ _ hk]
      exact List.getElem_mem hk, rfl⟩

theorem getD_range_map {β : Type} (n : ℕ) (f : ℕ → β) (j : ℕ) (h : j < n)
    (d : β) : ((List.range n).map f).getD j d = f j := by
  rw [getD_map_lt _ _ j (by simpa using h) d 0]
  congr 1
  rw [List.getD_eq_getElem _ _ (by simpa using h), List.getElem_range]

theorem avgPriceBpsE_shares_pos (gross delta : ℝ) (hd : 0 < delta) (v : ℤ)
    (h : QuoteLayer.avgPriceBpsE gross (QuoteLayer.quantizeShares delta) = .ok v) :
    0 < QuoteLayer.quantizeShares delta := by
  have hnn : 0 ≤ QuoteLayer.quantizeShares delta := by
    unfold QuoteLayer.quantizeShares
    rw [if_pos (le_of_lt hd)]
    have hfl : (0 : ℝ) ≤ ((⌊delta * 100000000⌋ : ℤ) : ℝ) := by
      exact_mod_cast Int.floor_nonneg.mpr (by positivity)
    exact div_nonneg hfl (by norm_num)
  rcases lt_or_eq_of_le hnn with hpos | heq
  · exact hpos
  · exfalso
    unfold QuoteLayer.avgPriceBpsE at h
    rw [if_pos heq.symm] at h
    exact Except.noConfusion h

theorem exceptBind_ok {ε α β : Type} {e : Except ε α} {f : α → Except ε β} {b : β}
    (h : (e >>= f) = .ok b) : ∃ a, e = .ok a ∧ f a = .ok b := by
  cases e with
  | error err => exact absurd h (by simp [Bind.bind, Except.bind])
  | ok a => exact ⟨a, rfl, by simpa [Bind.bind, Except.bind] using h⟩

theorem checkQuote_ok {quote : Except String Exec.QuoteOut} {qo : Exec.QuoteOut}
    (h : Exec.checkQuote quote = .ok qo) : quote = .ok qo ∧ 0 < qo.sharesOut := by
  unfold Exec.checkQuote at h
  cases quote with
  | error e => exact absurd h (by simp)
  | ok qo0 =>
    dsimp only at h
    by_cases hs : qo0.sharesOut ≤ 0
    · rw [if_pos hs] at h
      exact absurd h (by simp)
    · rw [if_neg hs] at h
      cases h
      exact ⟨rfl, lt_of_not_le hs⟩

theorem checkTargetAndSlippage_ok {st : Exec.ExecState} {req : Exec.BuyReq}
    {qo : Exec.QuoteOut} {u : Unit}
    (h : Exec.checkTargetAndSlippage st req qo = .ok u) :
    req.targetIdx < st.q.length ∧
      (∀ m, req.minSharesOut = some m → ¬(qo.sharesOut < m)) := by
  unfold Exec.checkTargetAndSlippage at h
  by_cases h1 : ¬(req.targetIdx < st.q.length)
  · rw [if_pos h1] at h
    exact absurd h (by simp)
  · rw [if_neg h1] at h
    refine ⟨not_not.mp h1, ?_⟩
    intro m hm hlt
    rw [hm] at h
    dsimp only at h
    rw [if_pos (decide_eq_true hlt)] at h
    exact absurd h (by simp)

theorem creditWinners_apply (l : List Settle.PositionM) (f : ℕ → ℚ) (u : ℕ) :
    Settle.creditWinners f l u =
      f u + ((l.filter (fun p => p.user == u)).map (fun p => p.shares)).sum := by
  induction l generalizing f with
  | nil => simp [Settle.creditWinners]
  | cons p l ih =>
    unfold Settle.creditWinners at ih ⊢
    rw [List.foldl_cons, ih]
    by_cases hu : p.user = u
    · subst hu
      rw [Function.update_same]
      simp [add_assoc]
    · rw [Function.update_noteq (fun h => hu h.symm)]
      simp only [List.filter_cons]
      rw [if_neg (by simpa using hu)]

theorem cachedCheck_none {st : Settle.SettleState} (hfresh : st.settlement = none) :
    Settle.cachedCheck st = none := by
  unfold Settle.cachedCheck
  rw [hfresh]
  simp

theorem settleInternal_fresh_ok {st st' : Settle.SettleState}
    {pay : Settle.SettlePayload} {tx : String} {um ue cp : Bool} {now : ℤ}
    (hfresh : st.settlement = none)
    (h : Settle.settleMarketInternal st tx um ue cp now = .ok (st', pay)) :
    ∃ ridx w pcU cU,
      st.market.resolvedOptionIndex = some ridx ∧
      st.options.find? (fun o => o.optionIndex == ridx) = some w ∧
      Settle.settlementWaterfall st.pool.poolCash st.pool.collateralAmount
        ((st.positions.filter
          (fun p => p.optionId == w.id && decide (0 < p.shares))).map
            (fun p => p.shares)).sum = .ok (pcU, cU) ∧
      (st', pay) = Settle.applySettlement st tx um ue cp now
        (st.positions.filter (fun p => p.optionId == w.id && decide (0 < p.shares)))
        ((st.positions.filter
          (fun p => p.optionId == w.id && decide (0 < p.shares))).map
            (fun p => p.shares)).sum pcU cU := by
  unfold Settle.settleMarketInternal at h
  rw [cachedCheck_none hfresh] at h
  dsimp only at h
  cases hridx : st.market.resolvedOptionIndex with
  | none => rw [hridx] at h; exact absurd h (by simp)
  | some ridx =>
    rw [hridx] at h
    dsimp only at h
    cases hfind : st.options.find? (fun o => o.optionIndex == ridx) with
    | none => rw [hfind] at h; exact absurd h (by simp)
    | some w =>
      rw [hfind] at h
      dsimp only at h
      cases hw : Settle.settlementWaterfall st.pool.poolCash
          st.pool.collateralAmount
          ((st.positions.filter
            (fun p => p.optionId == w.id && decide (0 < p.shares))).map
              (fun p => p.shares)).sum with
      | error e => rw [hw] at h; exact absurd h (by simp)
      | ok pcu =>
        obtain ⟨pcU, cU⟩ := pcu
        rw [hw] at h
        dsimp only at h
        exact ⟨ridx, w, pcU, cU, rfl, hfind, hw, (Except.ok.inj h).symm⟩

theorem waterfall_ok {pc coll total pcU cU : ℚ}
    (hpc : 0 ≤ pc) (htotal : 0 ≤ total)
    (h : Settle.settlementWaterfall pc coll total = .ok (pcU, cU)) :
    pcU = min pc total ∧ cU = total - pcU := by
  unfold Settle.settlementWaterfall at h
  dsimp only at h
  by_cases h1 : 0 < total
  · simp only [if_pos h1] at h
    by_cases h2 : 0 < total - min pc total ∧ coll < total - min pc total
    · rw [if_pos h2] at h
      exact absurd h (by simp)
    · rw [if_neg h2] at h
      obtain ⟨e1, e2⟩ := Prod.mk.injEq .. ▸ Except.ok.inj h
      refine ⟨e1.symm, ?_⟩
      rw [← e2, ← e1]
      by_cases h3 : 0 < total - min pc total
      · rw [if_pos h3]
      · have hz : total - min pc total = 0 :=
          le_antisymm (not_lt.mp h3) (by have := min_le_right pc total; linarith)
        rw [if_neg h3, hz]
  · simp only [if_neg h1] at h
    have htz : total = 0 := le_antisymm (not_lt.mp h1) htotal
    rw [htz] at h
    simp only [sub_zero] at h
    rw [if_neg (by push_neg; intro hc; linarith)] at h
    obtain ⟨e1, e2⟩ := Prod.mk.injEq .. ▸ Except.ok.inj h
    have hcU0 : cU = 0 := by
      rw [← e2]
      simp
    refine ⟨?_, ?_⟩
    · rw [← e1, htz, min_eq_right hpc]
    · rw [hcU0, ← e1, htz]
      simp

theorem waterfall_error {pc coll total need avail pcE totalE : ℚ}
    (h : Settle.settlementWaterfall pc coll total =
      .error (.insufficientFunds need avail pcE totalE)) :
    pcE = pc ∧ avail = coll ∧ totalE = total ∧ need = total - pc ∧
      avail < need ∧ need - avail = total - pc - coll := by
  unfold Settle.settlementWaterfall at h
  dsimp only at h
  by_cases h1 : 0 < total
  · simp only [if_pos h1] at h
    by_cases h2 : 0 < total - min pc total ∧ coll < total - min pc total
    · rw [if_pos h2] at h
      obtain ⟨hneed, havail, hpcE, htotE⟩ :=
        Settle.SettleErr.insufficientFunds.inj (Except.error.inj h)
      have hmin : min pc total = pc := by
        rcases le_total pc total with hle | hle
        · exact min_eq_left hle
        · exfalso
          rw [min_eq_right hle] at h2
          obtain ⟨h21, _⟩ := h2
          simp at h21
      rw [hmin] at hneed h2
      subst hneed havail hpcE htotE
      exact ⟨rfl, rfl, rfl, rfl, h2.2, by ring⟩
    · rw [if_neg h2] at h
      exact absurd h (by simp)
  · simp only [if_neg h1] at h
    rw [if_neg (by push_neg; intro hc; linarith)] at h
    exact absurd h (by simp)

theorem settleInternal_ok_settlement_isSome {st st' : Settle.SettleState}
    {pay : Settle.SettlePayload} {tx : String} {um ue cp : Bool} {now : ℤ}
    (h : Settle.settleMarketInternal st tx um ue cp now = .ok (st', pay)) :
    st'.settlement.isSome = true := by
  unfold Settle.settleMarketInternal at h
  cases hc : Settle.cachedCheck st with
  | some payload =>
    rw [hc] at h
    dsimp only at h
    obtain ⟨e1, _⟩ := Prod.mk.injEq .. ▸ Except.ok.inj h
    rw [← e1]
    unfold Settle.cachedCheck at hc
    by_cases hs : st.market.settledAt.isSome
    · rw [if_pos hs] at hc
      cases hrow : st.settlement with
      | none => simp [hrow] at hc
      | some ex => rfl
    · rw [if_neg hs] at hc
      exact absurd hc (by simp)
  | none =>
    rw [hc] at h
    dsimp only at h
    cases hridx : st.market.resolvedOptionIndex with
    | none => rw [hridx] at h; exact absurd h (by simp)
    | some ridx =>
      rw [hridx] at h
      dsimp only at h
      cases hfind : st.options.find? (fun o => o.optionIndex == ridx) with
      | none => rw [hfind] at h; exact absurd h (by simp)
      | some w =>
        rw [hfind] at h
        dsimp only at h
        cases hw : Settle.settlementWaterfall st.pool.poolCash
            st.pool.collateralAmount
            ((st.positions.filter
              (fun p => p.optionId == w.id && decide (0 < p.shares))).map
                (fun p => p.shares)).sum with
        | error e => rw [hw] at h; exact absurd h (by simp)
        | ok pcu =>
          obtain ⟨pcU, cU⟩ := pcu
          rw [hw] at h
          dsimp only at h
          have hpair := Except.ok.inj h
          unfold Settle.applySettlement at hpair
          cases hrow : st.settlement with
          | none =>
            rw [hrow] at hpair
            dsimp only at hpair
            obtain ⟨e1, _⟩ := Prod.mk.injEq .. ▸ hpair
            rw [← e1]
            rfl
          | some ex =>
            rw [hrow] at hpair
            dsimp only at hpair
            obtain ⟨e1, _⟩ := Prod.mk.injEq .. ▸ hpair
            rw [← e1]
            simp [hrow]

theorem settleInternal_ok_fresh_status {st st' : Settle.SettleState}
    {pay : Settle.SettlePayload} {tx : String} {ue cp : Bool} {now : ℤ}
    (h : Settle.settleMarketInternal st tx true ue cp now = .ok (st', pay))
    (hfrsh : pay.alreadySettled = false) :
    st'.market.status = "resolved" := by
  unfold Settle.settleMarketInternal at h
  cases hc : Settle.cachedCheck st with
  | some payload =>
    rw [hc] at h
    dsimp only at h
    obtain ⟨_, e2⟩ := Prod.mk.injEq .. ▸ Except.ok.inj h
    unfold Settle.cachedCheck at hc
    by_cases hs : st.market.settledAt.isSome
    · rw [if_pos hs] at hc
      cases hrow : st.settlement with
      | none => rw [hrow] at hc; exact absurd hc (by simp)
      | some ex =>
        rw [hrow] at hc
        have hpl : payload = Settle.cachedPayload ex := by simpa using hc.symm
        rw [← e2, hpl] at hfrsh
        exact absurd hfrsh (by simp [Settle.cachedPayload])
    · rw [if_neg hs] at hc
      exact absurd hc (by simp)
  | none =>
    rw [hc] at h
    dsimp only at h
    cases hridx : st.market.resolvedOptionIndex with
    | none => rw [hridx] at h; exact absurd h (by simp)
    | some ridx =>
      rw [hridx] at h
      dsimp only at h
      cases hfind : st.options.find? (fun o => o.optionIndex == ridx) with
      | none => rw [hfind] at h; exact absurd h (by simp)
      | some w =>
        rw [hfind] at h
        dsimp only at h
        cases hw : Settle.settlementWaterfall st.pool.poolCash
            st.pool.collateralAmount
            ((st.positions.filter
              (fun p => p.optionId == w.id && decide (0 < p.shares))).map
                (fun p => p.shares)).sum with
        | error e => rw [hw] at h; exact absurd h (by simp)
        | ok pcu =>
          obtain ⟨pcU, cU⟩ := pcu
          rw [hw] at h
          dsimp only at h
          have hpair := Except.ok.inj h
          unfold Settle.applySettlement at hpair
          cases hrow : st.settlement with
          | none =>
            rw [hrow] at hpair
            dsimp only at hpair
            obtain ⟨e1, _⟩ := Prod.mk.injEq .. ▸ hpair
            rw [← e1]
            rfl
          | some ex =>
            rw [hrow] at hpair
            dsimp only at hpair
            obtain ⟨_, e2⟩ := Prod.mk.injEq .. ▸ hpair
            rw [← e2] at hfrsh
            exact absurd hfrsh (by simp [Settle.cachedPayload])

end Helper

/-- C1: for every successful standard (non-NO-side) `execute_buy` of gross
amount `A` on pool index `k`: the balance decreases by exactly `A`,
`pool_cash` increases by exactly `A`, the position's shares increase by
exactly the quoted `shares_out`, its `cost_basis` increases by exactly `A`,
and only the target outcome's `q` changes — it increases by `shares_out`,
every other outcome's `q` is unchanged. -/
theorem C1_execute_buy_standard_deltas (st st' : Exec.ExecState) (req : Exec.BuyReq)
    (quote : Except String Exec.QuoteOut) (now : ℤ) (rcpt : Exec.BuyReceipt)
    (hstd : req.isNoSide = false)
    (h : Exec.executeBuy st req quote now = .ok (st', rcpt)) :
    ∃ qo, quote = .ok qo ∧ rcpt.sharesOut = qo.sharesOut ∧
      st'.balance = st.balance - req.amountIn ∧
      st'.poolCash = st.poolCash + req.amountIn ∧
      st'.posShares = st.posShares + qo.sharesOut ∧
      st'.posCostBasis = st.posCostBasis + req.amountIn ∧
      req.targetIdx < st.q.length ∧
      st'.q.getD req.targetIdx 0 = st.q.getD req.targetIdx 0 + qo.sharesOut ∧
      (∀ j, j ≠ req.targetIdx → st'.q.getD j 0 = st.q.getD j 0) := by
  unfold Exec.executeBuy at h
  obtain ⟨u1, hp, h⟩ := Helper.exceptBind_ok h
  obtain ⟨u2, hpre, h⟩ := Helper.exceptBind_ok h
  obtain ⟨qo, hq, h⟩ := Helper.exceptBind_ok h
  obtain ⟨u3, hts, h⟩ := Helper.exceptBind_ok h
  obtain ⟨hquote, hpos⟩ := Helper.checkQuote_ok hq
  obtain ⟨hidx, _⟩ := Helper.checkTargetAndSlippage_ok hts
  unfold Exec.applyBuyMutations at h
  rw [hstd] at h
  simp only [Bool.false_and, Bool.false_eq_true, if_false] at h
  obtain ⟨hst', hrcpt⟩ := Prod.mk.injEq .. ▸ Except.ok.inj h
  subst hst' hrcpt
  exact ⟨qo, hquote, rfl, rfl, rfl, rfl, rfl, hidx,
    Helper.getD_set_self st.q req.targetIdx _ 0 hidx,
    fun j hj => Helper.getD_set_ne st.q req.targetIdx j _ 0 hj⟩

/-- Witness for C1: a concrete standard buy of 10 for 5 quoted shares on a
live two-outcome pool, run end to end. -/
theorem C1_execute_buy_standard_deltas_witness :
    Fixtures.buyReq1.isNoSide = false ∧
    Exec.executeBuy Fixtures.buyState Fixtures.buyReq1 (.ok Fixtures.quoteOk5) 0 =
      .ok (Fixtures.buyStateAfter, Fixtures.buyReceipt1) ∧
    (∃ qo, (Except.ok Fixtures.quoteOk5 : Except String Exec.QuoteOut) = .ok qo ∧
      Fixtures.buyReceipt1.sharesOut = qo.sharesOut ∧
      Fixtures.buyStateAfter.balance = Fixtures.buyState.balance - Fixtures.buyReq1.amountIn ∧
      Fixtures.buyStateAfter.poolCash = Fixtures.buyState.poolCash + Fixtures.buyReq1.amountIn ∧
      Fixtures.buyStateAfter.posShares = Fixtures.buyState.posShares + qo.sharesOut ∧
      Fixtures.buyStateAfter.posCostBasis = Fixtures.buyState.posCostBasis + Fixtures.buyReq1.amountIn ∧
      Fixtures.buyReq1.targetIdx < Fixtures.buyState.q.length ∧
      Fixtures.buyStateAfter.q.getD Fixtures.buyReq1.targetIdx 0 =
        Fixtures.buyState.q.getD Fixtures.buyReq1.targetIdx 0 + qo.sharesOut ∧
      (∀ j, j ≠ Fixtures.buyReq1.targetIdx →
        Fixtures.buyStateAfter.q.getD j 0 = Fixtures.buyState.q.getD j 0)) :=
  have h : Exec.executeBuy Fixtures.buyState Fixtures.buyReq1 (.ok Fixtures.quoteOk5) 0 =
      .ok (Fixtures.buyStateAfter, Fixtures.buyReceipt1) := by
    simp only [Exec.executeBuy, Exec.checkBuyParams, Exec.checkPreQuote,
      Exec.validateMarketOption, Exec.checkQuote, Exec.checkTargetAndSlippage,
      Exec.maxSlippageCheck, Exec.applyBuyMutations, Fixtures.buyState,
      Fixtures.buyReq1, Fixtures.quoteOk5, Fixtures.buyStateAfter,
      Fixtures.buyReceipt1, Bind.bind, Except.bind]
    norm_num
  ⟨rfl, h, C1_execute_buy_standard_deltas _ _ _ _ 0 _ rfl h⟩

/-- **C7.** For every `execute_buy` call with `min_shares_out` supplied and
greater than 0, whose parameter guards and pre-quote validations
(market/event/option state, pool liquidity, balance sufficiency) pass,
whose quote call returns a quote, and whose target index is in the pool:
if the quoted `shares_out` is below `min_shares_out`, the trade fails with
error code `SLIPPAGE_PROTECTION` and the database state after the call is
identical to the state before it (the transaction rolls every write back).
`realizableQuote` carries the source fact that `quote_from_state` can only
return a buy quote with positive quantized `shares_out`: its
`avg_price_bps` float division (`avgPriceBpsE`) raises `ZeroDivisionError`
on zero shares (`Helper.avgPriceBpsE_shares_pos`), surfacing as
`QUOTE_MATH_ERROR` before any quote dict is produced. -/
theorem C7_slippage_protection (st : Exec.ExecState) (req : Exec.BuyReq)
    (quote : Except String Exec.QuoteOut) (qo : Exec.QuoteOut) (m : ℚ) (now : ℤ)
    (hp : Exec.checkBuyParams req = .ok ())
    (hpre : Exec.checkPreQuote st req now = .ok ())
    (hq : quote = .ok qo)
    (hreal : Exec.realizableQuote quote)
    (hidx : req.targetIdx < st.q.length)
    (hm : req.minSharesOut = some m) (hm0 : 0 < m)
    (hlt : qo.sharesOut < m) :
    Exec.executeBuy st req quote now = .error "SLIPPAGE_PROTECTION" ∧
    Exec.buyFinalState st req quote now = st := by
  have hpos : 0 < qo.sharesOut := hreal qo hq
  have hcq : Exec.checkQuote quote = .ok qo := by
    rw [hq]
    unfold Exec.checkQuote
    dsimp only
    rw [if_neg (not_le.mpr hpos)]
  have hcts : Exec.checkTargetAndSlippage st req qo = .error "SLIPPAGE_PROTECTION" := by
    unfold Exec.checkTargetAndSlippage
    rw [if_neg (not_not_intro hidx), hm]
    dsimp only
    rw [if_pos (decide_eq_true hlt)]
  have hrun : Exec.executeBuy st req quote now = .error "SLIPPAGE_PROTECTION" := by
    unfold Exec.executeBuy
    rw [hp, hpre, hcq]
    simp only [Bind.bind, Except.bind]
    rw [hcts]
  exact ⟨hrun, by unfold Exec.buyFinalState; rw [hrun]⟩

/-- Witness for C7: a concrete buy with `min_shares_out = 7` against a
(realizable) quote of 5 shares fails with `SLIPPAGE_PROTECTION` and leaves
the state unchanged. -/
theorem C7_slippage_protection_witness :
    Exec.executeBuy Fixtures.buyState Fixtures.buyReqMin7 (.ok Fixtures.quoteOk5) 0 =
      .error "SLIPPAGE_PROTECTION" ∧
    Exec.buyFinalState Fixtures.buyState Fixtures.buyReqMin7 (.ok Fixtures.quoteOk5) 0 =
      Fixtures.buyState :=
  C7_slippage_protection Fixtures.buyState Fixtures.buyReqMin7 _ Fixtures.quoteOk5 7 0
    (by norm_num [Exec.checkBuyParams, Fixtures.buyReqMin7])
    (by norm_num [Exec.checkPreQuote, Exec.validateMarketOption, Fixtures.buyState,
      Fixtures.buyReqMin7])
    rfl
    (by
      intro qo h
      cases h
      norm_num [Fixtures.quoteOk5])
    (by norm_num [Fixtures.buyReqMin7, Fixtures.buyState])
    rfl
    (by norm_num)
    (by norm_num [Fixtures.quoteOk5, Fixtures.buyReqMin7])

/-- C2: for every successful settlement of a resolved market (no prior
settlement row): `total_payout` is the sum of shares over the winning
positions with positive shares; `pool_cash_used = min(pool_cash,
total_payout)`; `collateral_used = total_payout - pool_cash_used` (pool
cash before collateral, `pool_cash_used + collateral_used = total_payout`);
the pool's `pool_cash` and `collateral_amount` each decrease by exactly the
used amounts; and every winning holder is credited exactly 1 unit of
collateral token per winning share. -/
theorem C2_settlement_conservation (st st' : Settle.SettleState)
    (pay : Settle.SettlePayload) (txId : String) (now : ℤ)
    (hpc : 0 ≤ st.pool.poolCash)
    (hfresh : st.settlement = none)
    (h : Settle.settleMarket st txId now = .ok (st', pay)) :
    pay.alreadySettled = false ∧
    pay.poolCashUsed = min st.pool.poolCash pay.totalPayout ∧
    pay.collateralUsed = pay.totalPayout - pay.poolCashUsed ∧
    pay.poolCashUsed + pay.collateralUsed = pay.totalPayout ∧
    st'.pool.poolCash = st.pool.poolCash - pay.poolCashUsed ∧
    st'.pool.collateralAmount = st.pool.collateralAmount - pay.collateralUsed ∧
    ∃ ridx w,
      st.market.resolvedOptionIndex = some ridx ∧
      st.options.find? (fun o => o.optionIndex == ridx) = some w ∧
      pay.totalPayout = ((st.positions.filter
        (fun p => p.optionId == w.id && decide (0 < p.shares))).map
          (fun p => p.shares)).sum ∧
      ∀ u, st'.balances u = st.balances u +
        (((st.positions.filter
          (fun p => p.optionId == w.id && decide (0 < p.shares))).filter
            (fun p => p.user == u)).map (fun p => p.shares)).sum := by
  unfold Settle.settleMarket at h
  by_cases hstatus : st.market.status ≠ "resolved"
  · rw [if_pos hstatus] at h
    exact absurd h (by simp)
  · rw [if_neg hstatus] at h
    obtain ⟨ridx, w, pcU, cU, hridx, hfind, hw, hpair⟩ :=
      Helper.settleInternal_fresh_ok hfresh h
    have htotal : (0:ℚ) ≤ ((st.positions.filter
        (fun p => p.optionId == w.id && decide (0 < p.shares))).map
          (fun p => p.shares)).sum := by
      apply List.sum_nonneg
      intro x hx
      obtain ⟨p, hp, hxe⟩ := List.mem_map.mp hx
      obtain ⟨-, hcond⟩ := List.mem_filter.mp hp
      obtain ⟨-, hpos⟩ := Bool.and_eq_true_iff.mp hcond
      rw [← hxe]
      exact le_of_lt (of_decide_eq_true hpos)
    obtain ⟨hpcU, hcU⟩ := Helper.waterfall_ok hpc htotal hw
    unfold Settle.applySettlement at hpair
    rw [hfresh] at hpair
    dsimp only at hpair
    obtain ⟨e1, e2⟩ := Prod.mk.injEq .. ▸ hpair
    subst e1 e2
    refine ⟨rfl, hpcU, by rw [hcU], by rw [hcU]; ring, rfl, rfl, ridx, w,
      hridx, hfind, rfl, ?_⟩
    intro u
    exact Helper.creditWinners_apply _ st.balances u

/-- Witness for C2: the settlement-waterfall scenario of spec §8 run
end to end — pool cash 100, collateral 200, winners of 150 and 100 shares;
pool cash used 100, collateral used 150, both winners credited. -/
theorem C2_settlement_conservation_witness :
    (0:ℚ) ≤ Fixtures.settleSt.pool.poolCash ∧
    Fixtures.settleSt.settlement = none ∧
    Settle.settleMarket Fixtures.settleSt "tx" 5 =
      .ok (Fixtures.settleStAfter, Fixtures.settlePayA) ∧
    (Fixtures.settlePayA.alreadySettled = false ∧
     Fixtures.settlePayA.poolCashUsed =
       min Fixtures.settleSt.pool.poolCash Fixtures.settlePayA.totalPayout ∧
     Fixtures.settlePayA.collateralUsed =
       Fixtures.settlePayA.totalPayout - Fixtures.settlePayA.poolCashUsed ∧
     Fixtures.settlePayA.poolCashUsed + Fixtures.settlePayA.collateralUsed =
       Fixtures.settlePayA.totalPayout ∧
     Fixtures.settleStAfter.pool.poolCash =
       Fixtures.settleSt.pool.poolCash - Fixtures.settlePayA.poolCashUsed ∧
     Fixtures.settleStAfter.pool.collateralAmount =
       Fixtures.settleSt.pool.collateralAmount - Fixtures.settlePayA.collateralUsed ∧
     ∃ ridx w,
       Fixtures.settleSt.market.resolvedOptionIndex = some ridx ∧
       Fixtures.settleSt.options.find? (fun o => o.optionIndex == ridx) = some w ∧
       Fixtures.settlePayA.totalPayout = ((Fixtures.settleSt.positions.filter
         (fun p => p.optionId == w.id && decide (0 < p.shares))).map
           (fun p => p.shares)).sum ∧
       ∀ u, Fixtures.settleStAfter.balances u = Fixtures.settleSt.balances u +
         (((Fixtures.settleSt.positions.filter
           (fun p => p.optionId == w.id && decide (0 < p.shares))).filter
             (fun p => p.user == u)).map (fun p => p.shares)).sum) := by
  have h : Settle.settleMarket Fixtures.settleSt "tx" 5 =
      .ok (Fixtures.settleStAfter, Fixtures.settlePayA) := by
    simp only [Settle.settleMarket, Settle.settleMarketInternal, Settle.cachedCheck,
      Settle.settlementWaterfall, Settle.applySettlement, Settle.creditWinners,
      Settle.cachedPayload, Fixtures.settleSt, Fixtures.settleStAfter,
      Fixtures.settlePayA]
    norm_num [List.find?, List.filter, List.foldl]
  exact ⟨by norm_num [Fixtures.settleSt], rfl, h,
    C2_settlement_conservation Fixtures.settleSt Fixtures.settleStAfter
      Fixtures.settlePayA "tx" 5 (by norm_num [Fixtures.settleSt]) rfl h⟩

/-- Counterexample for C4: settling pool_cash=50, collateral=50, winning
shares=150 fails with `INSUFFICIENT_FUNDS`, but the amount the error
reports needing is `remaining = total_payout - pool_cash = 100` together
with the available collateral 50 — not the net shortfall 50 the claim
states (`total_payout - pool_cash - collateral = 50 ≠ 100`). -/
theorem C4_counterexample :
    Settle.settleMarket Fixtures.shortfallSt "tx" 0 =
      .error (.insufficientFunds 100 50 50 150) ∧
    ¬((100 : ℚ) = 150 - 50 - 50) := by
  constructor
  · simp only [Settle.settleMarket, Settle.settleMarketInternal, Settle.cachedCheck,
      Settle.settlementWaterfall, Settle.applySettlement, Fixtures.shortfallSt]
    norm_num [List.find?, List.filter]
  · norm_num

/-- C4 (as amended): when settlement fails with `INSUFFICIENT_FUNDS`, the
error reports the remaining amount needed after pool cash
(`total_payout - pool_cash`, e.g. 100 in the spec scenario) and the
available collateral — not the net shortfall itself; the exact shortfall
`total_payout - pool_cash - collateral_amount` equals the difference of the
two reported numbers, so an operator can compute the exact top-up from the
error. -/
theorem C4_insufficient_funds_reporting (st : Settle.SettleState) (txId : String)
    (now : ℤ) (need avail pcE totalE : ℚ)
    (h : Settle.settleMarket st txId now =
      .error (.insufficientFunds need avail pcE totalE)) :
    pcE = st.pool.poolCash ∧ avail = st.pool.collateralAmount ∧
    need = totalE - st.pool.poolCash ∧ avail < need ∧
    need - avail = totalE - st.pool.poolCash - st.pool.collateralAmount := by
  unfold Settle.settleMarket at h
  by_cases hstatus : st.market.status ≠ "resolved"
  · rw [if_pos hstatus] at h
    exact absurd h (by simp)
  · rw [if_neg hstatus] at h
    unfold Settle.settleMarketInternal at h
    cases hc : Settle.cachedCheck st with
    | some payload => rw [hc] at h; exact absurd h (by simp)
    | none =>
      rw [hc] at h
      dsimp only at h
      cases hridx : st.market.resolvedOptionIndex with
      | none => rw [hridx] at h; exact absurd h (by simp)
      | some ridx =>
        rw [hridx] at h
        dsimp only at h
        cases hfind : st.options.find? (fun o => o.optionIndex == ridx) with
        | none => rw [hfind] at h; exact absurd h (by simp)
        | some w =>
          rw [hfind] at h
          dsimp only at h
          cases hw : Settle.settlementWaterfall st.pool.poolCash
              st.pool.collateralAmount
              ((st.positions.filter
                (fun p => p.optionId == w.id && decide (0 < p.shares))).map
                  (fun p => p.shares)).sum with
          | error e =>
            rw [hw] at h
            dsimp only at h
            have he := Except.error.inj h
            rw [he] at hw
            obtain ⟨h1, h2, h3, h4, h5, h6⟩ := Helper.waterfall_error hw
            exact ⟨h1, h2, by rw [h4, h3], h5, by rw [h6, h3]⟩
          | ok pcu =>
            rw [hw] at h
            dsimp only at h
            exact absurd h (by simp)

/-- Witness for C4 (as amended): in the spec scenario (pool cash 50,
collateral 50, winning shares 150) the error carries need=100 and
available=50, whose difference 50 is the exact shortfall. -/
theorem C4_insufficient_funds_reporting_witness :
    (50 : ℚ) = Fixtures.shortfallSt.pool.poolCash ∧
    (50 : ℚ) = Fixtures.shortfallSt.pool.collateralAmount ∧
    (100 : ℚ) = 150 - Fixtures.shortfallSt.pool.poolCash ∧
    (50 : ℚ) < 100 ∧
    (100 : ℚ) - 50 = 150 - Fixtures.shortfallSt.pool.poolCash -
      Fixtures.shortfallSt.pool.collateralAmount :=
  C4_insufficient_funds_reporting Fixtures.shortfallSt "tx" 0 100 50 50 150
    (by
      simp only [Settle.settleMarket, Settle.settleMarketInternal,
        Settle.cachedCheck, Settle.settlementWaterfall, Settle.applySettlement,
        Fixtures.shortfallSt]
      norm_num [List.find?, List.filter])

/-- C9: `settle_market` on a market that is already settled (its
`settled_at` is set and a `MarketSettlement` row exists) returns the
existing settlement payload with `already_settled = true`, the state
entirely unchanged (no balance credited again, `pool_cash` and
`collateral_amount` untouched), and the payload reproduces the existing
row's numbers. -/
theorem C9_settle_market_idempotent (st : Settle.SettleState) (txId : String)
    (now t : ℤ) (ex : Settle.SettlementRow)
    (hstatus : st.market.status = "resolved")
    (hsett : st.market.settledAt = some t)
    (hrow : st.settlement = some ex) :
    Settle.settleMarket st txId now = .ok (st, Settle.cachedPayload ex) ∧
    (Settle.cachedPayload ex).alreadySettled = true ∧
    (Settle.cachedPayload ex).settlementTxId = ex.settlementTxId ∧
    (Settle.cachedPayload ex).totalPayout = ex.totalPayout ∧
    (Settle.cachedPayload ex).poolCashUsed = ex.poolCashUsed ∧
    (Settle.cachedPayload ex).collateralUsed = ex.collateralUsed := by
  refine ⟨?_, rfl, rfl, rfl, rfl, rfl⟩
  have hc : Settle.cachedCheck st = some (Settle.cachedPayload ex) := by
    unfold Settle.cachedCheck
    rw [hrow, hsett]
    rfl
  unfold Settle.settleMarket
  rw [if_neg (by simp [hstatus])]
  unfold Settle.settleMarketInternal
  rw [hc]

/-- Witness for C9: a second `settle_market` call on a concrete settled
market returns the recorded payload as `already_settled` and the state
unchanged. -/
theorem C9_settle_market_idempotent_witness :
    Settle.settleMarket Fixtures.settledSt "tx9" 9 =
      .ok (Fixtures.settledSt, Settle.cachedPayload Fixtures.settledRow) ∧
    (Settle.cachedPayload Fixtures.settledRow).alreadySettled = true ∧
    (Settle.cachedPayload Fixtures.settledRow).settlementTxId =
      Fixtures.settledRow.settlementTxId ∧
    (Settle.cachedPayload Fixtures.settledRow).totalPayout =
      Fixtures.settledRow.totalPayout ∧
    (Settle.cachedPayload Fixtures.settledRow).poolCashUsed =
      Fixtures.settledRow.poolCashUsed ∧
    (Settle.cachedPayload Fixtures.settledRow).collateralUsed =
      Fixtures.settledRow.collateralUsed :=
  C9_settle_market_idempotent Fixtures.settledSt "tx9" 9 3 Fixtures.settledRow
    rfl rfl rfl

/-- C3: `resolve_and_settle_market` is atomic — if the settlement step
fails (for example a funding shortfall), the transaction rolls back, so the
observable state is exactly the pre-call state (the status has not advanced
to `resolved` and no balance is credited); when a fresh settlement
succeeds, the market's status is `resolved` and the settlement row exists;
and a market observable as `resolved` after the call either was already
resolved or went through a successful settlement whose audit row is
present. -/
theorem C3_resolve_and_settle_atomicity (st : Settle.SettleState) (widx : ℤ)
    (txId : String) (now : ℤ) :
    (∀ e, Settle.resolveAndSettleMarket st widx txId now = .error e →
      Settle.resolveAndSettleFinal st widx txId now = st) ∧
    (∀ st' r s, Settle.resolveAndSettleMarket st widx txId now = .ok (st', (r, s)) →
      s.alreadySettled = false →
      st'.market.status = "resolved" ∧ st'.settlement.isSome = true) ∧
    ((Settle.resolveAndSettleFinal st widx txId now).market.status = "resolved" →
      st.market.status = "resolved" ∨
      ∃ st' rs, Settle.resolveAndSettleMarket st widx txId now = .ok (st', rs) ∧
        st'.settlement.isSome = true) := by
  refine ⟨?_, ?_, ?_⟩
  · intro e he
    unfold Settle.resolveAndSettleFinal
    rw [he]
  · intro st' r s hok hfrsh
    unfold Settle.resolveAndSettleMarket at hok
    obtain ⟨a, hres, hok⟩ := Helper.exceptBind_ok hok
    obtain ⟨st1, r1⟩ := a
    dsimp only at hok
    obtain ⟨b, hsettle, hpure⟩ := Helper.exceptBind_ok hok
    obtain ⟨st2, s2⟩ := b
    dsimp only at hpure
    have hinj := Except.ok.inj hpure
    obtain ⟨e1, e2⟩ := Prod.mk.injEq .. ▸ hinj
    obtain ⟨_, e3⟩ := Prod.mk.injEq .. ▸ e2
    rw [← e1]
    rw [← e3] at hfrsh
    exact ⟨Helper.settleInternal_ok_fresh_status hsettle hfrsh,
      Helper.settleInternal_ok_settlement_isSome hsettle⟩
  · cases hres : Settle.resolveAndSettleMarket st widx txId now with
    | error e =>
      intro hst
      unfold Settle.resolveAndSettleFinal at hst
      rw [hres] at hst
      exact Or.inl hst
    | ok pr =>
      obtain ⟨st2, rs⟩ := pr
      intro _
      refine Or.inr ⟨st2, rs, rfl, ?_⟩
      unfold Settle.resolveAndSettleMarket at hres
      obtain ⟨a, hres1, hres⟩ := Helper.exceptBind_ok hres
      obtain ⟨st1, r1⟩ := a
      dsimp only at hres
      obtain ⟨b, hsettle, hpure⟩ := Helper.exceptBind_ok hres
      obtain ⟨st2a, s2⟩ := b
      dsimp only at hpure
      have hinj := Except.ok.inj hpure
      obtain ⟨e1, _⟩ := Prod.mk.injEq .. ▸ hinj
      rw [← e1]
      exact Helper.settleInternal_ok_settlement_isSome hsettle

/-- Witness for C3: a concrete `resolve_and_settle_market` on the spec
shortfall scenario fails with `INSUFFICIENT_FUNDS`, and the observable
state is the unchanged pre-call state. -/
theorem C3_resolve_and_settle_atomicity_witness :
    Settle.resolveAndSettleFinal Fixtures.shortfallSt 1 "tx" 0 =
      Fixtures.shortfallSt :=
  (C3_resolve_and_settle_atomicity Fixtures.shortfallSt 1 "tx" 0).1
    (.insufficientFunds 100 50 50 150)
    (by
      simp only [Settle.resolveAndSettleMarket, Settle.resolveMarketInternal,
        Settle.settleMarketInternal, Settle.cachedCheck, Settle.settlementWaterfall,
        Settle.applySettlement, Fixtures.shortfallSt, Bind.bind, Except.bind]
      norm_num [List.find?, List.filter])

/-- Counterexample for C10: an option whose `side` field is set to the
whitespace-only string `" "` at `option_index 0` — its `side` field is set
(neither empty nor null) and does not trim-lowercase to `"no"`, so under
the claim's rule it is not a NO outcome; but `_is_no_option` strips it to
the empty string, falls back to the index rule, and counts it as NO. -/
theorem C10_counterexample :
    Settle.isNoOption { status := "active" } Fixtures.whitespaceSideOpt = true ∧
    Settle.claimNoOptionRule Fixtures.whitespaceSideOpt = false := by
  constructor
  · rfl
  · rfl

/-- C10 (as amended): `_is_no_option` keys on the trimmed, lowercased
`side` — when that is nonempty the option counts as NO exactly when it
equals `"no"`; when it is empty (`side` null, empty, or whitespace-only)
the option counts as NO exactly when its `option_index` is 0; and an
exclusive-event partial settlement targeting an active option that does not
count as NO under this rule is rejected with `INVALID_PARTIAL_OPTION`. -/
theorem C10_partial_no_option_rule (mkt : Exec.MarketM) (opt : Exec.OptionM) :
    (Settle.isNoOption mkt opt = Settle.amendedNoOptionRule opt) ∧
    (∀ s, opt.side = some s → Py.pyLower (Py.pyStrip s) ≠ "" →
      Settle.isNoOption mkt opt = (Py.pyLower (Py.pyStrip s) == "no")) ∧
    (∀ s, opt.side = some s → Py.pyLower (Py.pyStrip s) = "" →
      Settle.isNoOption mkt opt = (opt.optionIndex == 0)) ∧
    (opt.side = none → Settle.isNoOption mkt opt = (opt.optionIndex == 0)) ∧
    (∀ (sst : Settle.SettleState) (ev : Exec.EventM) (w : Exec.OptionM)
        (widx : ℤ) (txId : String) (now : ℤ),
      sst.event = some ev →
      Py.pyLower (Py.pyStrip (ev.groupRule.getD "")) = "exclusive" →
      sst.options.find? (fun o => o.optionIndex == widx) = some w →
      w.isActive = true →
      Settle.isNoOption sst.market w = false →
      Settle.resolveAndSettleMarketOne sst widx txId now =
        .error (.err "INVALID_PARTIAL_OPTION")) := by
  refine ⟨rfl, ?_, ?_, ?_, ?_⟩
  · intro s hs hne
    unfold Settle.isNoOption
    rw [hs]
    simp only [Option.getD_some]
    rw [if_pos hne]
  · intro s hs hz
    unfold Settle.isNoOption
    rw [hs]
    simp only [Option.getD_some]
    rw [if_neg (by rw [hz]; exact fun hcon => hcon rfl)]
  · intro hs
    unfold Settle.isNoOption
    rw [hs]
    rfl
  · intro sst ev w widx txId now hev hrule hfind hact hno
    unfold Settle.resolveAndSettleMarketOne
    rw [hev]
    dsimp only
    rw [hrule]
    rw [if_neg (by simp)]
    rw [hfind]
    dsimp only
    rw [if_neg (by simp [hact])]
    rw [if_pos ⟨rfl, by simp [hno]⟩]

/-- Witness for C10 (as amended): a concrete exclusive event whose active
YES option at index 1 is targeted for partial settlement, rejected with
`INVALID_PARTIAL_OPTION`. -/
theorem C10_partial_no_option_rule_witness :
    Settle.resolveAndSettleMarketOne Fixtures.exclusiveSt 1 "tx" 0 =
      .error (.err "INVALID_PARTIAL_OPTION") :=
  (C10_partial_no_option_rule { status := "active" }
      Fixtures.whitespaceSideOpt).2.2.2.2
    Fixtures.exclusiveSt { status := "active", groupRule := some "exclusive" }
    { id := 1, optionIndex := 1, side := some "yes" } 1 "tx" 0
    rfl rfl rfl rfl rfl


/-- C8: a quote request against a pool whose `fee_bps` is outside
`[0, 9999]` — in particular `fee_bps = 10000` — never produces a quote,
and once the side and argument checks pass the result is precisely the
`_fee_rate_from_bps` input error, raised before any pricing computation
(the fee check precedes target resolution and all LMSR math in
`quote_from_state`). -/
theorem C8_fee_bps_rejected (st : QuoteLayer.PoolState) (oid : Option String)
    (oidx : Option ℤ) (side : String) (amountIn shares : Option ℝ) (mq : ℝ)
    (isNo : Bool)
    (hfee : st.feeBps < 0 ∨ 10000 ≤ st.feeBps) :
    (∀ quote, QuoteLayer.quoteFromState st oid oidx side amountIn shares mq isNo ≠
      .ok quote) ∧
    ((Py.pyLower side = "buy" ∨ Py.pyLower side = "sell") →
      ¬((amountIn.isNone ∧ shares.isNone) ∨ (amountIn.isSome ∧ shares.isSome)) →
      QuoteLayer.quoteFromState st oid oidx side amountIn shares mq isNo =
        .error (.input "fee_bps must be in [0, 9999]")) := by
  have hf : QuoteLayer.feeRateFromBps st.feeBps =
      .error (.input "fee_bps must be in [0, 9999]") := by
    unfold QuoteLayer.feeRateFromBps
    rw [if_pos hfee]
  unfold QuoteLayer.quoteFromState
  by_cases h1 : Py.pyLower side ≠ "buy" ∧ Py.pyLower side ≠ "sell"
  · rw [if_pos h1]
    exact ⟨fun quote h => Except.noConfusion h,
      fun hside _ => absurd h1 (by rcases hside with h | h <;> simp [h])⟩
  · rw [if_neg h1]
    by_cases h2 : (amountIn.isNone ∧ shares.isNone) ∨ (amountIn.isSome ∧ shares.isSome)
    · rw [if_pos h2]
      exact ⟨fun quote h => Except.noConfusion h, fun _ hargs => absurd h2 hargs⟩
    · rw [if_neg h2]
      rw [hf]
      refine ⟨fun quote h => ?_, fun _ _ => ?_⟩
      · simp only [Bind.bind, Except.bind] at h
        exact Except.noConfusion h
      · simp only [Bind.bind, Except.bind]

/-- Witness for C8: a concrete buy quote against a pool with
`fee_bps = 10000` returns the fee input error. -/
theorem C8_fee_bps_rejected_witness :
    QuoteLayer.quoteFromState Fixtures.feePoolState none (some 0) "buy" (some 1)
        none (1 / 100) false =
      .error (.input "fee_bps must be in [0, 9999]") :=
  (C8_fee_bps_rejected Fixtures.feePoolState none (some 0) "buy" (some 1) none
      (1 / 100) false (by norm_num [Fixtures.feePoolState])).2
    (Or.inl rfl) (by simp)

/-- C5: for every outcome vector `q`, `b > 0`, in-range index `k` and
`A > 0`, the delta returned by `buy_amount_to_delta_q` moves the cost by
`A` up to the float-style tolerance `1e-9 * max(1, A)` (the branch cuts of
the numerically-stable `_log1p_exp` are embedded literally; on the central
branch the computation agrees exactly with the closed form, whose value
moves the cost by exactly `A` in exact real arithmetic, as the second
conjunct states with `S = Σ exp(q_j/b)` and `a = exp(q_k/b)`); and
`b ≤ 0`, `A ≤ 0`, or `k` out of range each raise an input error. -/
theorem C5_lmsr_buy_inverse (q : List ℝ) (b A : ℝ) (k : ℕ)
    (hb : 0 < b) (hA : 0 < A) (hk : k < q.length) :
    (∃ d, LMSR.buyAmountToDeltaQ q b (k : ℤ) A = .ok d ∧
      |LMSR.cost (q.set k (q.getD k 0 + d)) b - LMSR.cost q b - A| <
        1e-9 * max 1 A) ∧
    (LMSR.cost (q.set k (q.getD k 0 +
        b * Real.log (1 + (Real.exp (A / b) - 1) *
          (LMSR.sumExp q b / Real.exp (q.getD k 0 / b))))) b -
      LMSR.cost q b = A) ∧
    (∀ b' : ℝ, b' ≤ 0 → LMSR.buyAmountToDeltaQ q b' (k : ℤ) A =
      .error (.input "b must be > 0")) ∧
    (∀ A' : ℝ, A' ≤ 0 → LMSR.buyAmountToDeltaQ q b (k : ℤ) A' =
      .error (.input "amount_net must be > 0")) ∧
    (∀ j : ℤ, j < 0 ∨ (q.length : ℤ) ≤ j → LMSR.buyAmountToDeltaQ q b j A =
      .error (.input "option_index out of range")) := by
  have hq : q ≠ [] := List.ne_nil_of_length_pos (by omega)
  have hbne : b ≠ 0 := ne_of_gt hb
  set S := LMSR.sumExp q b with hSdef
  set a := Real.exp (q.getD k 0 / b) with hadef
  have ha : 0 < a := Real.exp_pos _
  have hS : 0 < S := Helper.sumExp_pos q b hq
  have haS : a ≤ S := Helper.exp_mem_le_sumExp q b k hk
  have hAb : 0 < A / b := div_pos hA hb
  set t := Real.exp (A / b) - 1 with htdef
  have htpos : 0 < t := by
    have h1 : 1 < Real.exp (A / b) := Real.one_lt_exp_iff.mpr hAb
    rw [htdef]
    linarith
  set x := Real.log t + (Real.log S - q.getD k 0 / b) with hxdef
  have hx_exp : Real.exp x = t * (S / a) := by
    rw [hxdef, Real.exp_add, Real.exp_sub, Real.exp_log htpos,
      Real.exp_log hS, hadef]
  have hcostq : LMSR.cost q b = b * Real.log S := Helper.cost_eq q b hq
  have hd : LMSR.buyDeltaVal q b k A = b * LMSR.log1pExp x := by
    simp only [LMSR.buyDeltaVal]
    rw [Helper.logsumexp_scaled q b hq,
      Helper.getD_map_lt q _ k hk 0 0]
  refine ⟨?_, ?_, ?_, ?_, ?_⟩
  · refine ⟨LMSR.buyDeltaVal q b k A, ?_, ?_⟩
    · have := Helper.buyAmountToDeltaQ_ok q b A (k : ℤ) hb hA
        (Int.natCast_nonneg k) (by exact_mod_cast hk)
      rwa [Int.toNat_natCast] at this
    · obtain ⟨hpos', hbnd⟩ := Helper.buy_inverse_bound b A S a t x
        (LMSR.buyDeltaVal q b k A) (Real.exp (LMSR.buyDeltaVal q b k A / b))
        hb hA ha haS htdef hx_exp hd rfl
      have hcs := Helper.cost_set q b k hk (q.getD k 0 + LMSR.buyDeltaVal q b k A)
      have hsplit : Real.exp ((q.getD k 0 + LMSR.buyDeltaVal q b k A) / b) =
          a * Real.exp (LMSR.buyDeltaVal q b k A / b) := by
        rw [add_div, Real.exp_add, hadef]
      rw [hcs, hsplit, hcostq, ← hSdef, ← hadef]
      exact hbnd
  · set d2 := b * Real.log (1 + (Real.exp (A / b) - 1) * (S / a)) with hd2
    have harg : (0 : ℝ) < 1 + (Real.exp (A / b) - 1) * (S / a) := by
      have : 0 < (Real.exp (A / b) - 1) * (S / a) := by
        apply mul_pos
        · rw [← htdef]; exact htpos
        · positivity
      linarith
    have hE2 : Real.exp (d2 / b) = 1 + (Real.exp (A / b) - 1) * (S / a) := by
      rw [hd2, mul_div_cancel_left₀ _ hbne, Real.exp_log harg]
    have hcs := Helper.cost_set q b k hk (q.getD k 0 + d2)
    have hsplit : Real.exp ((q.getD k 0 + d2) / b) = a * Real.exp (d2 / b) := by
      rw [add_div, Real.exp_add, hadef]
    rw [hcs, hsplit, hE2, hcostq, ← hSdef, ← hadef]
    have hform : S - a + a * (1 + (Real.exp (A / b) - 1) * (S / a)) =
        S * Real.exp (A / b) := by
      field_simp
      ring
    rw [hform, Real.log_mul (ne_of_gt hS) (ne_of_gt (Real.exp_pos _)),
      Real.log_exp]
    field_simp
    ring
  · intro b' hb'
    unfold LMSR.buyAmountToDeltaQ
    rw [if_pos hb']
  · intro A' hA'
    unfold LMSR.buyAmountToDeltaQ
    rw [if_neg (not_le.mpr hb), if_pos hA']
  · intro j hj
    unfold LMSR.buyAmountToDeltaQ
    rw [if_neg (not_le.mpr hb), if_neg (not_le.mpr hA), if_pos hj]

/-- Witness for C5: the two-outcome pool `q = [0, 0]`, `b = 1`, a buy of
net amount 1 on index 0. -/
theorem C5_lmsr_buy_inverse_witness :
    ∃ d, LMSR.buyAmountToDeltaQ [0, 0] 1 ((0 : ℕ) : ℤ) 1 = .ok d ∧
      |LMSR.cost (([0, 0] : List ℝ).set 0 (([0, 0] : List ℝ).getD 0 0 + d)) 1 -
        LMSR.cost [0, 0] 1 - 1| < 1e-9 * max 1 1 :=
  (C5_lmsr_buy_inverse [0, 0] 1 1 0 (by norm_num) (by norm_num)
    (by norm_num)).1

